import Mathlib

/-!
Verification of the goscraper metadata-extraction library.

This file shallowly embeds the Go sources of the repository
(`goscraper.go` and the unnamed merged variant) in Lean 4.  Pure Go
functions become Lean functions; the stateful scraper becomes explicit
state passing; the HTTP transport and the HTML tokenizer — external
collaborators per the specification — are abstracted as an oracle
function and a token list respectively.  The parts of Go's `net/url`
standard library exercised by the code (Parse, String, QueryUnescape,
QueryEscape, IsAbs, Query) are modelled by executable Lean functions
that mirror the stdlib's behaviour on the inputs this program feeds
them; deliberate simplifications of that boundary are noted in doc
comments where they occur.

Strings are treated as sequences of Unicode scalar values (Lean
`Char`), matching Go's rune-level iteration; the byte-level view used
by `avoidByte`/`escapeByte` is recovered via UTF-8 encoding and
low-byte truncation exactly as the Go code computes it.
-/

namespace Goscraper

/-! ## Generic list/string helpers mirroring Go's `strings` package -/

/-- Boolean substring test on character lists: Go `strings.Contains`. -/
def listContainsSub (needle hay : List Char) : Bool :=
  match hay with
  | [] => needle.isEmpty
  | _ :: t => needle.isPrefixOf hay || listContainsSub needle t

/-- Go `strings.Contains` on strings. -/
def containsSub (hay needle : String) : Bool :=
  listContainsSub needle.data hay.data

/-- Replace the first occurrence of `needle` in `hay` by `repl`:
Go `strings.Replace(hay, needle, repl, 1)` for non-empty `needle`. -/
def replaceFirst (hay needle repl : List Char) : List Char :=
  match hay with
  | [] => []
  | c :: t =>
    if needle.isPrefixOf (c :: t) then repl ++ (c :: t).drop needle.length
    else c :: replaceFirst t needle repl

/-- Suffix of the list after the first occurrence of the two-character
sequence `#!`; `none` when absent.  This is the capture `matches[1]` of
the Go regular expression `#!(.*)` before the `.`-excludes-newline cut. -/
def afterHashBang : List Char → Option (List Char)
  | [] => none
  | c :: t =>
    if c == '#' && t.head? == some '!' then some t.tail
    else afterHashBang t

/-- Split at the first `#!`: prefix before it and suffix after it. -/
def hashBangSplit : List Char → Option (List Char × List Char)
  | [] => none
  | c :: t =>
    if c == '#' && t.head? == some '!' then some ([], t.tail)
    else (hashBangSplit t).map (fun p => (c :: p.1, p.2))

/-- Go `strings.Cut(s, sep)` for a one-character separator: the part
before the first occurrence and, when found, the part after it. -/
def cutChar (sep : Char) : List Char → List Char × Option (List Char)
  | [] => ([], none)
  | c :: t =>
    if c = sep then ([], some t)
    else
      let r := cutChar sep t
      (c :: r.1, r.2)

/-- ASCII lower-casing of one character.  Go's `strings.ToLower` does
full Unicode folding, but every string this program lower-cases before
comparison is compared against ASCII literals, so the ASCII fold is
the behaviourally relevant part (kept executable for kernel
reduction). -/
def lowerChar (c : Char) : Char :=
  if 'A' ≤ c && c ≤ 'Z' then Char.ofNat (c.toNat + 32) else c

/-- ASCII lower-casing of a string. -/
def lowerStr (s : String) : String :=
  String.mk (s.data.map lowerChar)

/-- ASCII whitespace, the Latin-1 part of Go `unicode.IsSpace`
(higher Unicode space code points are not modelled). -/
def isSpaceChar (c : Char) : Bool :=
  c = ' ' || c = '\t' || c = '\n' || c.toNat = 0x0B || c.toNat = 0x0C || c = '\r'

/-- Go `strings.TrimSpace` on a character list. -/
def trimChars (l : List Char) : List Char :=
  ((l.dropWhile isSpaceChar).reverse.dropWhile isSpaceChar).reverse

/-- Hexadecimal digit test, Go `ishex`. -/
def isHexDigit (c : Char) : Bool :=
  ('0' ≤ c && c ≤ '9') || ('a' ≤ c && c ≤ 'f') || ('A' ≤ c && c ≤ 'F')

/-- Value of a hexadecimal digit, Go `unhex`. -/
def unhex (c : Char) : Nat :=
  if '0' ≤ c && c ≤ '9' then c.toNat - '0'.toNat
  else if 'a' ≤ c && c ≤ 'f' then c.toNat - 'a'.toNat + 10
  else if 'A' ≤ c && c ≤ 'F' then c.toNat - 'A'.toNat + 10
  else 0

/-- Upper-case hexadecimal digit character, Go's `upperhex` table. -/
def hexDigitUpper (n : Nat) : Char :=
  (String.data "0123456789ABCDEF").getD n '0'

/-- Percent-escape a byte value as `%XX` with upper-case hex. -/
def percentByte (b : Nat) : List Char :=
  ['%', hexDigitUpper (b / 16), hexDigitUpper (b % 16)]

/-- UTF-8 encoding of one Unicode scalar value as a byte list; this is
how Go lays out a `rune` inside a string. -/
def utf8Bytes (c : Char) : List Nat :=
  let n := c.toNat
  if n < 0x80 then [n]
  else if n < 0x800 then [0xC0 + n / 0x40, 0x80 + n % 0x40]
  else if n < 0x10000 then
    [0xE0 + n / 0x1000, 0x80 + n / 0x40 % 0x40, 0x80 + n % 0x40]
  else
    [0xF0 + n / 0x40000, 0x80 + n / 0x1000 % 0x40, 0x80 + n / 0x40 % 0x40,
      0x80 + n % 0x40]

/-- ASCII alphanumeric byte. -/
def isAlnumByte (b : Nat) : Bool :=
  (0x61 ≤ b && b ≤ 0x7A) || (0x41 ≤ b && b ≤ 0x5A) || (0x30 ≤ b && b ≤ 0x39)

/-- Encoding modes of Go `net/url.shouldEscape`, restricted to the ones
this program exercises. -/
inductive EscapeMode
  | path
  | queryComponent
  | fragment
  | host
  deriving DecidableEq, Repr

/-- Go `net/url.shouldEscape` for the modes above (byte-level). -/
def shouldEscapeByte (b : Nat) (mode : EscapeMode) : Bool :=
  if isAlnumByte b then false
  else if mode = .host &&
      [0x21, 0x24, 0x26, 0x27, 0x28, 0x29, 0x2A, 0x2B, 0x2C, 0x3B, 0x3D,
        0x3A, 0x5B, 0x5D, 0x3C, 0x3E, 0x22].contains b then false
  else if [0x2D, 0x5F, 0x2E, 0x7E].contains b then false
  else if [0x24, 0x26, 0x2B, 0x2C, 0x2F, 0x3A, 0x3B, 0x3D, 0x3F, 0x40].contains b then
    match mode with
    | .path => b = 0x3F
    | .queryComponent => true
    | .fragment => false
    | .host => true
  else if mode = .fragment && [0x21, 0x28, 0x29, 0x2A].contains b then false
  else true

/-- Go `net/url.escape` on the UTF-8 bytes of a string: spaces become
`+` only in query-component mode, everything else that must be escaped
becomes `%XX`. -/
def escapeStr (s : List Char) (mode : EscapeMode) : List Char :=
  (s.map fun c =>
    ((utf8Bytes c).map fun b =>
      if b = 0x20 && mode = .queryComponent then ['+']
      else if shouldEscapeByte b mode then percentByte b
      else [Char.ofNat b]).flatten).flatten

/-- Go `net/url.unescape`: decode `%XX` escapes (two hex digits
required, otherwise failure) and, in query-component mode only, turn
`+` into a space.  Decoded bytes are represented as scalar values
directly; the program never feeds multi-byte percent-escapes through
this path, so the byte/scalar distinction is immaterial here. -/
def unescapeStr (mode : EscapeMode) : List Char → Option (List Char)
  | [] => some []
  | '%' :: rest =>
    match rest with
    | a :: b :: t =>
      if isHexDigit a && isHexDigit b then
        (unescapeStr mode t).map fun r => Char.ofNat (unhex a * 16 + unhex b) :: r
      else none
    | _ => none
  | '+' :: t =>
    (unescapeStr mode t).map fun r =>
      (if mode = .queryComponent then ' ' else '+') :: r
  | c :: t => (unescapeStr mode t).map fun r => c :: r

/-- Go `url.QueryUnescape` on a string, `none` on malformed escapes. -/
def queryUnescape (s : String) : Option String :=
  (unescapeStr .queryComponent s.data).map String.mk

/-- Go `url.QueryEscape` of a one-rune string, as the scraper applies
it character by character while building the escaped fragment. -/
def queryEscapeChar (c : Char) : String :=
  String.mk (escapeStr [c] .queryComponent)

/-! ## The `net/url.URL` model

Modelled subset of Go's `net/url`: scheme/opaque/authority/path/query/
fragment splitting with percent-escape validation on path and
fragment.  Not modelled (unused by the program on the inputs the
claims concern): IPv6 bracket hosts, userinfo validation, the
`ForceQuery`/`OmitHost` round-trip flags and the `./` prefix rule of
`URL.String`, and host-mode escape refinements. -/

structure URL where
  scheme : String := ""
  /-- Go `URL.Opaque`. -/
  opq : String := ""
  host : String := ""
  /-- Decoded path, Go `URL.Path`. -/
  path : String := ""
  /-- Go `URL.RawPath` (empty when the escaped form is canonical). -/
  rawPath : String := ""
  rawQuery : String := ""
  /-- Decoded fragment, Go `URL.Fragment`. -/
  fragment : String := ""
  /-- Go `URL.RawFragment`. -/
  rawFragment : String := ""
  deriving DecidableEq, Repr, Inhabited

/-- Go `stringContainsCTLByte`. -/
def containsCTL (s : List Char) : Bool :=
  s.any fun c => c.toNat < 0x20 || c.toNat = 0x7F

/-- Go `net/url.getScheme` loop: `none` is the `missing protocol
scheme` error; otherwise the (lower-cased) scheme, empty when the URL
has none, together with the remainder. -/
def getSchemeLoop (orig : List Char) (acc : List Char) :
    List Char → Option (String × List Char)
  | [] => some ("", orig)
  | c :: t =>
    if c.isAlpha then getSchemeLoop orig (acc ++ [c]) t
    else if c.isDigit || c = '+' || c = '-' || c = '.' then
      if acc.isEmpty then some ("", orig) else getSchemeLoop orig (acc ++ [c]) t
    else if c = ':' then
      if acc.isEmpty then none
      else some (lowerStr (String.mk acc), t)
    else some ("", orig)

/-- Go `net/url.getScheme`. -/
def getScheme (s : List Char) : Option (String × List Char) :=
  getSchemeLoop s [] s

/-- Go `validEncoded(s, encodePath)` at byte level. -/
def validEncodedPath (s : List Char) : Bool :=
  s.all fun c => (utf8Bytes c).all fun b =>
    [0x21, 0x24, 0x26, 0x27, 0x28, 0x29, 0x2A, 0x2B, 0x2C, 0x3B, 0x3D, 0x3A,
      0x40, 0x5B, 0x5D, 0x25].contains b || !shouldEscapeByte b .path

/-- Go `validEncoded(s, encodeFragment)` at byte level. -/
def validEncodedFrag (s : List Char) : Bool :=
  s.all fun c => (utf8Bytes c).all fun b =>
    [0x21, 0x24, 0x26, 0x27, 0x28, 0x29, 0x2A, 0x2B, 0x2C, 0x3B, 0x3D, 0x3A,
      0x40, 0x5B, 0x5D, 0x25].contains b || !shouldEscapeByte b .fragment

/-- Go `URL.setPath`: decode (failing on bad escapes) and remember the
raw form only when it is not canonical. -/
def setPathModel (p : List Char) : Option (String × String) :=
  (unescapeStr .path p).map fun d =>
    (String.mk d, if escapeStr d .path = p then "" else String.mk p)

/-- Go `URL.setFragment`, same shape as `setPathModel`. -/
def setFragmentModel (f : List Char) : Option (String × String) :=
  (unescapeStr .fragment f).map fun d =>
    (String.mk d, if escapeStr d .fragment = f then "" else String.mk f)

/-- Go `parseHost` restricted to non-bracketed hosts: validate an
optional trailing `:port` and percent-escapes. -/
def parseHostModel (h : List Char) : Option String :=
  if h.contains '[' || h.contains ']' then none
  else if h.contains ':' && !((h.reverse.takeWhile (· ≠ ':')).all Char.isDigit) then
    none
  else (unescapeStr .host h).map String.mk

/-- Go `url.Parse`.  The fragment is split off first, then scheme,
query, authority and path, with the same error conditions (control
characters, `:` at position zero, a colon in the first segment of a
scheme-less relative path, malformed percent-escapes). -/
def urlParse (raw : String) : Option URL :=
  let cut := cutChar '#' raw.data
  let u := cut.1
  if containsCTL u then none
  else
    match getScheme u with
    | none => none
    | some (scheme, rest0) =>
      let cutQ := cutChar '?' rest0
      let rest1 := cutQ.1
      let rawQuery := match cutQ.2 with | none => "" | some q => String.mk q
      match setFragmentModel (match cut.2 with | none => [] | some f => f) with
      | none => none
      | some (fragment, rawFragment) =>
        if rest1.head? ≠ some '/' then
          if scheme ≠ "" then
            some { scheme := scheme, opq := String.mk rest1,
                   rawQuery := rawQuery, fragment := fragment,
                   rawFragment := rawFragment }
          else if (rest1.takeWhile (· ≠ '/')).contains ':' then none
          else
            match setPathModel rest1 with
            | none => none
            | some (path, rawPath) =>
              some { path := path, rawPath := rawPath, rawQuery := rawQuery,
                     fragment := fragment, rawFragment := rawFragment }
        else if (scheme ≠ "" || rest1.take 3 ≠ ['/', '/', '/']) &&
            rest1.take 2 = ['/', '/'] then
          let auth := (rest1.drop 2).takeWhile (· ≠ '/')
          let rest2 := (rest1.drop 2).dropWhile (· ≠ '/')
          let hostPart :=
            if auth.contains '@' then (auth.reverse.takeWhile (· ≠ '@')).reverse
            else auth
          match parseHostModel hostPart with
          | none => none
          | some host =>
            match setPathModel rest2 with
            | none => none
            | some (path, rawPath) =>
              some { scheme := scheme, host := host, path := path,
                     rawPath := rawPath, rawQuery := rawQuery,
                     fragment := fragment, rawFragment := rawFragment }
        else
          match setPathModel rest1 with
          | none => none
          | some (path, rawPath) =>
            some { scheme := scheme, path := path, rawPath := rawPath,
                   rawQuery := rawQuery, fragment := fragment,
                   rawFragment := rawFragment }

/-- Go `URL.EscapedPath`. -/
def escapedPath (u : URL) : String :=
  if u.rawPath ≠ "" && validEncodedPath u.rawPath.data &&
      unescapeStr .path u.rawPath.data = some u.path.data then u.rawPath
  else if u.path = "*" then "*"
  else String.mk (escapeStr u.path.data .path)

/-- Go `URL.EscapedFragment`. -/
def escapedFragment (u : URL) : String :=
  if u.rawFragment ≠ "" && validEncodedFrag u.rawFragment.data &&
      unescapeStr .fragment u.rawFragment.data = some u.fragment.data then
    u.rawFragment
  else String.mk (escapeStr u.fragment.data .fragment)

/-- Go `URL.String` (without the unmodelled `ForceQuery`/`OmitHost`/
leading `./` refinements). -/
def urlString (u : URL) : String :=
  (if u.scheme ≠ "" then u.scheme ++ ":" else "") ++
  (if u.opq ≠ "" then u.opq
   else
     (if u.scheme ≠ "" ∨ u.host ≠ "" then
       (if u.host ≠ "" ∨ u.path ≠ "" then "//" else "") ++
         String.mk (escapeStr u.host.data .host)
      else "") ++
     (let p := escapedPath u
      (if p ≠ "" ∧ p.data.head? ≠ some '/' ∧ u.host ≠ "" then "/" else "") ++ p)) ++
  (if u.rawQuery ≠ "" then "?" ++ u.rawQuery else "") ++
  (if u.fragment ≠ "" then "#" ++ escapedFragment u else "")

/-- Go `URL.IsAbs`. -/
def isAbs (u : URL) : Bool :=
  u.scheme != ""

/-- Split a character list on `&`, Go `strings.Cut` iterated by
`url.ParseQuery`. -/
def splitAmp : List Char → List (List Char)
  | [] => [[]]
  | c :: t =>
    if c = '&' then [] :: splitAmp t
    else
      match splitAmp t with
      | [] => [[c]]
      | h :: r => (c :: h) :: r

/-- Whether `len(u.Query()) > 0` in Go: some `&`-separated piece of the
raw query is non-empty, free of `;`, and percent-decodes. -/
def urlQueryNonempty (u : URL) : Bool :=
  if u.rawQuery = "" then false
  else (splitAmp u.rawQuery.data).any fun p =>
    !p.isEmpty && !(p.contains ';') &&
    (unescapeStr .queryComponent (p.takeWhile (· ≠ '='))).isSome &&
    (unescapeStr .queryComponent ((p.dropWhile (· ≠ '=')).drop 1)).isSome

/-! ## The goscraper data model -/

/-- Errors of the extraction pipeline.  `urlParseError` is any
`url.Parse` failure, `urlDecodeError` a `url.QueryUnescape` failure,
`transportError` an HTTP failure at the fetch boundary, and
`pathIndexPanic` models the Go runtime panic raised by the
out-of-bounds index `imgUrl.Path[0]` on an empty path. -/
inductive ScrapeError
  | urlParseError
  | urlDecodeError
  | transportError
  | pathIndexPanic
  deriving DecidableEq, Repr

/-- The package-level constant `EscapedFragment`. -/
def EscapedFragment : String := "_escaped_fragment_="

/-- Go `avoidByte` (src/unnamed/part_001 lines 460-466). -/
def avoidByte (b : Nat) : Bool :=
  b = 127 || b ≤ 31

/-- Go `escapeByte` (src/unnamed/part_001 lines 468-474). -/
def escapeByte (b : Nat) : Bool :=
  b = 32 || b = 35 || b = 37 || b = 38 || b = 43 || (127 ≤ b && b ≤ 255)

/-- Go `cleanStr`: lower-cased, whitespace-trimmed. -/
def cleanStr (s : String) : String :=
  lowerStr (String.mk (trimChars s.data))

/-- Scraper session state (`Scraper` struct).  The `Options` field
(user agent, maximum document length) only affects the HTTP boundary
abstracted away by the fetch oracle and is omitted.  `MaxRedirect` is
a Go `int` — a 64-bit two's-complement machine word on the targeted
platforms — whose values range over `[-2^63, 2^63)`; its single
arithmetic operation, the decrement in `getDocument`, wraps around at
the minimum value, which `intWrap64` below makes explicit. -/
structure Scraper where
  Url : URL
  EscapedFragmentUrl : Option URL := none
  MaxRedirect : Int
  deriving DecidableEq, Repr

/-- Two's-complement wrap-around of 64-bit Go `int` arithmetic: the
unique value congruent to `x` modulo `2^64` lying in `[-2^63, 2^63)`.
Applied wherever the source performs `int` arithmetic (the sole such
site is the redirect-budget decrement), so that `MaxRedirect - 1` at
the minimum `int` value `-9223372036854775808` wraps to the maximum
`9223372036854775807` exactly as Go's `-=` does. -/
def intWrap64 (x : Int) : Int :=
  (x + 9223372036854775808) % 18446744073709551616 - 9223372036854775808

/-- Preview structure (`DocumentPreview`); `Type'` stands for the Go
field `Type`, which is a reserved word in Lean. -/
structure DocumentPreview where
  Icon : String := ""
  Name : String := ""
  Title : String := ""
  Description : String := ""
  Type' : String := ""
  Images : List String := []
  Link : String := ""
  deriving DecidableEq, Repr, Inhabited

/-- Token kinds of the `golang.org/x/net/html` tokenizer.  The error
token is represented by the end of the token list. -/
inductive TokenType
  | startTag
  | endTag
  | selfClosingTag
  | textToken
  | commentToken
  | doctypeToken
  deriving DecidableEq, Repr

/-- One tokenizer attribute (key/value pair). -/
structure Attr where
  key : String
  val : String
  deriving DecidableEq, Repr

/-- A materialized token: `data` is the tag name for tag tokens and
the text for text tokens, exactly as `Tokenizer.Token()` yields it. -/
structure Token where
  typ : TokenType
  data : String
  attr : List Attr := []
  deriving DecidableEq, Repr

/-- A fetched document: token stream of the body plus the accumulated
preview.  The response headers and the raw byte buffer are not used by
any claim and are omitted. -/
structure Document where
  body : List Token
  preview : DocumentPreview
  deriving DecidableEq, Repr

/-- Go `metaFragment`: the AJAX-crawlable marker
`name="fragment" content="!"`. -/
def metaFragment (tok : Token) : Bool :=
  let nc := tok.attr.foldl (fun (p : String × String) a =>
    (if cleanStr a.key == "name" then a.val else p.1,
     if cleanStr a.key == "content" then a.val else p.2)) ("", "")
  nc.1 == "fragment" && nc.2 == "!"

/-! ## Fragment rewriter (`toFragmentUrl`) -/

/-- The character loop of `toFragmentUrl` (lines 166-176): per rune,
take the low byte `byte(r)`, drop it when `avoidByte`, query-escape
the rune when `escapeByte`, keep it literally otherwise. -/
def escapePayload : List Char → List Char
  | [] => []
  | c :: t =>
    let b := c.toNat % 256
    if avoidByte b then escapePayload t
    else if escapeByte b then (queryEscapeChar c).data ++ escapePayload t
    else c :: escapePayload t

/-- The string computation of `toFragmentUrl` on the percent-decoded
URL: find the regex `#!(.*)` (whose `.` does not match a newline),
build `_escaped_fragment_=` plus the escaped payload, and substitute it
for the first occurrence of the matched text with a `?` or `&` prefix
depending on whether the original URL had query parameters; with no
`#!` present, append the prefix and the bare marker instead. -/
def toFragmentReplaced (decoded : List Char) (hasQ : Bool) : List Char :=
  let p : List Char := if hasQ then ['&'] else ['?']
  match afterHashBang decoded with
  | some rest =>
    let payload := rest.takeWhile (· ≠ '\n')
    let tokenStr := EscapedFragment.data ++ escapePayload payload
    replaceFirst decoded ('#' :: '!' :: payload) (p ++ tokenStr)
  | none => decoded ++ p ++ EscapedFragment.data

/-- Go `Scraper.toFragmentUrl` (lines 158-199): percent-decode the
current URL string (decode failure is the returned error), rewrite it
via `toFragmentReplaced`, parse the result and store it as the
escaped-fragment URL; on any error the scraper is left unchanged. -/
def toFragmentUrl (s : Scraper) : Except ScrapeError Unit × Scraper :=
  match queryUnescape (urlString s.Url) with
  | none => (.error .urlDecodeError, s)
  | some decoded =>
    let replaced := String.mk (toFragmentReplaced decoded.data (urlQueryNonempty s.Url))
    match urlParse replaced with
    | none => (.error .urlParseError, s)
    | some u => (.ok (), { s with EscapedFragmentUrl := some u })

/-! ## Document fetcher (`getDocument`) -/

/-- Go `Scraper.getUrl`. -/
def getUrl (s : Scraper) : String :=
  match s.EscapedFragmentUrl with
  | some u => urlString u
  | none => urlString s.Url

/-- Result of one HTTP GET at the transport boundary: the effective
URL after transport-level redirects and the tokenized body. -/
structure FetchResult where
  effectiveUrl : URL
  body : List Token

/-- The HTTP transport oracle; `none` models a transport error. -/
def Fetch : Type :=
  String → Option FetchResult

/-- Go `Scraper.getDocument` (lines 201-272): decrement the redirect
budget (with the 64-bit wrap of Go `int` arithmetic: line 212 runs
`scraper.MaxRedirect -= 1` unconditionally, so the minimum `int` value
wraps to the maximum), rewrite a `#!` URL (discarding any
`toFragmentUrl` error, line 214), adopt a URL already containing the
escaped-fragment marker, fetch, adopt a differing effective URL
(resetting the fragment URL), and build the document with the preview
link seeded from the session URL.  The HEAD content-length probe, the
size cap and the charset conversion are transport-boundary details
omitted from the model. -/
def getDocumentPrep (s0 : Scraper) : Scraper :=
  let s1 : Scraper := { s0 with MaxRedirect := intWrap64 (s0.MaxRedirect - 1) }
  let s2 := if containsSub (urlString s1.Url) "#!" then (toFragmentUrl s1).2 else s1
  if containsSub (urlString s2.Url) EscapedFragment then
    { s2 with EscapedFragmentUrl := some s2.Url }
  else s2

/-- Continuation of `getDocument` after the pre-fetch state updates. -/
def getDocument (s0 : Scraper) (f : Fetch) :
    Except ScrapeError Document × Scraper :=
  let s3 := getDocumentPrep s0
  match f (getUrl s3) with
  | none => (.error .transportError, s3)
  | some r =>
    let s4 := if urlString r.effectiveUrl ≠ getUrl s3 then
        { s3 with EscapedFragmentUrl := none, Url := r.effectiveUrl } else s3
    (.ok { body := r.body, preview := { Link := urlString s4.Url } }, s4)

/-! ## Metadata extraction state machine (`parseDocument`) -/

/-- The per-scan mutable state of `parseDocument`: the accumulating
preview, the flags `ogImage`, `headPassed`, `hasFragment`,
`hasCanonical`, the parsed canonical target (meaningful only when
`hasCanonical` is set, mirroring the nilable Go pointer), and the
captured initial link (Go local `link`). -/
structure ScanState where
  preview : DocumentPreview
  ogImage : Bool := false
  headPassed : Bool := false
  hasFragment : Bool := false
  hasCanonical : Bool := false
  canonicalUrl : URL := {}
  link : String := ""
  deriving DecidableEq, Repr

/-- The `link` attribute loop (lines 319-344): track `canonical`,
`hasIcon` and the last `href`; inside the loop, record a canonical
redirect (re-parsing the href) whenever a non-empty href differs from
the captured link, and set the icon to the raw href whenever `hasIcon`
holds. -/
def linkLoop (link : String) (canonical hasIcon : Bool) (href : String)
    (st : ScanState) : List Attr → Except ScrapeError ScanState
  | [] => .ok st
  | a :: t =>
    let canonical := canonical ||
      (cleanStr a.key == "rel" && cleanStr a.val == "canonical")
    let hasIcon := hasIcon ||
      (cleanStr a.key == "rel" && containsSub (cleanStr a.val) "icon")
    let href := if cleanStr a.key == "href" then a.val else href
    match (if href.length > 0 && canonical && link != href then
        (urlParse href).map fun u =>
          ({ st with hasCanonical := true, canonicalUrl := u } : ScanState)
      else some st) with
    | none => .error .urlParseError
    | some st1 =>
      let st2 := if href.length > 0 && hasIcon then
          { st1 with preview := { st1.preview with Icon := href } } else st1
      linkLoop link canonical hasIcon href st2 t

/-- The `meta` attribute extraction (lines 353-362): the last
`property`-or-`name` value and the last `content` value. -/
def metaProps (attrs : List Attr) : String × String :=
  attrs.foldl (fun (p : String × String) a =>
    (if cleanStr a.key == "property" || cleanStr a.key == "name" then a.val
     else p.1,
     if cleanStr a.key == "content" then a.val else p.2)) ("", "")

/-- The `meta` case (lines 346-391): only two-attribute tags are
considered; the AJAX-crawlable marker raises `hasFragment` when no
escaped-fragment URL is set; then the Open Graph switch, where
`og:image` absolutizes a relative URL with the session scheme/host
and replaces the image list wholesale. -/
def handleMeta (s : Scraper) (st : ScanState) (tok : Token) :
    Except ScrapeError ScanState :=
  if tok.attr.length ≠ 2 then .ok st
  else
    let st := if metaFragment tok && s.EscapedFragmentUrl.isNone then
        { st with hasFragment := true } else st
    let pc := metaProps tok.attr
    let content := pc.2
    match cleanStr pc.1 with
    | "og:site_name" => .ok { st with preview := { st.preview with Name := content } }
    | "og:title" => .ok { st with preview := { st.preview with Title := content } }
    | "og:type" => .ok { st with preview := { st.preview with Type' := content } }
    | "og:description" =>
      .ok { st with preview := { st.preview with Description := content } }
    | "description" =>
      .ok (if st.preview.Description.length = 0 then
        { st with preview := { st.preview with Description := content } } else st)
    | "og:url" => .ok { st with preview := { st.preview with Link := content } }
    | "og:image" =>
      match urlParse content with
      | none => .error .urlParseError
      | some u0 =>
        let u := if !isAbs u0 then
            { u0 with host := s.Url.host, scheme := s.Url.scheme } else u0
        .ok { st with
              ogImage := true
              preview := { st.preview with Images := [urlString u] } }
    | _ => .ok st

/-- The `img` attribute loop (lines 402-420): for each `src`
attribute, parse it; an absolute URL is appended verbatim, a relative
one is joined to `scheme://host` with a `/` inserted unless the path
already starts with one — reading `Path[0]`, which panics when the
parsed path is empty. -/
def imgLoop (s : Scraper) (st : ScanState) : List Attr → Except ScrapeError ScanState
  | [] => .ok st
  | a :: t =>
    if cleanStr a.key == "src" then
      match urlParse a.val with
      | none => .error .urlParseError
      | some u =>
        if !isAbs u then
          match u.path.data with
          | [] => .error .pathIndexPanic
          | c :: _ =>
            let img := if c = '/' then s.Url.scheme ++ "://" ++ s.Url.host ++ u.path
              else s.Url.scheme ++ "://" ++ s.Url.host ++ "/" ++ u.path
            imgLoop s { st with preview :=
              { st.preview with Images := st.preview.Images ++ [img] } } t
        else
          imgLoop s { st with preview :=
            { st.preview with Images := st.preview.Images ++ [a.val] } } t
    else imgLoop s st t

/-- The tag switch of the scan loop (lines 311-421), except for the
`title` start-tag lookahead which consumes an extra token and
therefore lives in `scanLoop` itself (mirroring the `t.Next()` call
inside the Go switch). -/
def handleTagToken (s : Scraper) (st : ScanState) (tok : Token) :
    Except ScrapeError ScanState :=
  match tok.data with
  | "head" => .ok (if tok.typ = .endTag then { st with headPassed := true } else st)
  | "body" => .ok { st with headPassed := true }
  | "link" => linkLoop st.link false false "" st tok.attr
  | "meta" => handleMeta s st tok
  | "img" => imgLoop s st tok.attr
  | _ => .ok st

/-- Write the consumed token's data as the title only when no title
has been set (lines 397-399). -/
def setTitleIfEmpty (st : ScanState) (d : String) : ScanState :=
  if st.preview.Title.length = 0 then
    { st with preview := { st.preview with Title := d } } else st

/-- Outcome of the token loop: normal completion (end of stream or
early stop), an error, or a pending redirect that fired. -/
inductive ScanOutcome
  | done : ScanState → ScanOutcome
  | err : ScrapeError → ScanOutcome
  | canonicalRedirect : URL → ScanOutcome
  | fragmentRedirect : ScanOutcome
  deriving DecidableEq, Repr

/-- The three end-of-iteration checks run after every tag token
(lines 423, 441, 451): canonical redirect, fragment redirect — both
requiring a passed head and a positive remaining budget — then early
termination once title, description and the `og:image` flag are all
set after the head. -/
def loopCheck (s : Scraper) (st : ScanState) : Option ScanOutcome :=
  if st.hasCanonical && st.headPassed && decide (0 < s.MaxRedirect) then
    some (.canonicalRedirect st.canonicalUrl)
  else if st.hasFragment && st.headPassed && decide (0 < s.MaxRedirect) then
    some .fragmentRedirect
  else if st.preview.Title.length > 0 && st.preview.Description.length > 0 &&
      st.ogImage && st.headPassed then
    some (.done st)
  else none

/-- Token kinds that reach the switch (line 306). -/
def isTagType (t : TokenType) : Bool :=
  t = .startTag || t = .endTag || t = .selfClosingTag

/-- The token loop of `parseDocument` (lines 301-455): skip non-tag
tokens without running the end checks, dispatch tag tokens (with the
`title` start tag consuming the immediately following token — an
exhausted stream yields the empty-data error token), then run
`loopCheck`; the end of the token list is the tokenizer error token
and returns the accumulated state. -/
def scanLoop (s : Scraper) (st : ScanState) : List Token → ScanOutcome
  | [] => .done st
  | tok :: rest =>
    if !isTagType tok.typ then scanLoop s st rest
    else if tok.data == "title" && tok.typ = .startTag then
      match rest with
      | [] =>
        let st1 := setTitleIfEmpty st ""
        match loopCheck s st1 with
        | some out => out
        | none => .done st1
      | next :: rest2 =>
        let st1 := setTitleIfEmpty st next.data
        match loopCheck s st1 with
        | some out => out
        | none => scanLoop s st1 rest2
    else
      match handleTagToken s st tok with
      | .error e => .err e
      | .ok st1 =>
        match loopCheck s st1 with
        | some out => out
        | none => scanLoop s st1 rest

/-- Initial scan state (lines 289-300): image list reset to empty,
link captured, site name defaulted to the host and icon defaulted to
the web-root favicon. -/
def initScanState (s : Scraper) (doc : Document) : ScanState :=
  { preview := { doc.preview with
      Images := []
      Name := s.Url.host
      Icon := s.Url.scheme ++ "://" ++ s.Url.host ++ "/favicon.ico" }
    link := doc.preview.Link }

/-- Absolutization of a relative canonical target (lines 424-430). -/
def absolutizeCanonical (s : Scraper) (cu : URL) : Option URL :=
  if !isAbs cu then urlParse (s.Url.scheme ++ "://" ++ s.Url.host ++ cu.path)
  else some cu

/-! ## The legacy variant (`src/goscraper.go`)

The repository also carries an earlier variant of `parseDocument`
(goscraper.go lines 133-269) without icon/site-name/type handling,
whose `og:image` stores the raw content and whose `img` join never
inspects `Path[0]`.  Its scan loop is embedded separately below; it
reuses `ScanState` (the extra fields stay at their defaults). -/

/-- The legacy `link` attribute loop (goscraper.go lines 161-179). -/
def linkLoopLegacy (link : String) (canonical : Bool) (href : String)
    (st : ScanState) : List Attr → Except ScrapeError ScanState
  | [] => .ok st
  | a :: t =>
    let canonical := canonical ||
      (cleanStr a.key == "rel" && cleanStr a.val == "canonical")
    let href := if cleanStr a.key == "href" then a.val else href
    match (if href.length > 0 && canonical && link != href then
        (urlParse href).map fun u =>
          ({ st with hasCanonical := true, canonicalUrl := u } : ScanState)
      else some st) with
    | none => .error .urlParseError
    | some st1 => linkLoopLegacy link canonical href st1 t

/-- The legacy `meta` case (goscraper.go lines 181-213): `og:image`
stores the raw content string without parsing or absolutization. -/
def handleMetaLegacy (s : Scraper) (st : ScanState) (tok : Token) :
    Except ScrapeError ScanState :=
  if tok.attr.length ≠ 2 then .ok st
  else
    let st := if metaFragment tok && s.EscapedFragmentUrl.isNone then
        { st with hasFragment := true } else st
    let pc := metaProps tok.attr
    let content := pc.2
    match cleanStr pc.1 with
    | "og:title" => .ok { st with preview := { st.preview with Title := content } }
    | "og:description" =>
      .ok { st with preview := { st.preview with Description := content } }
    | "description" =>
      .ok (if st.preview.Description.length = 0 then
        { st with preview := { st.preview with Description := content } } else st)
    | "og:url" => .ok { st with preview := { st.preview with Link := content } }
    | "og:image" =>
      .ok { st with
            ogImage := true
            preview := { st.preview with Images := [content] } }
    | _ => .ok st

/-- The legacy `img` loop (goscraper.go lines 224-238): a relative
source is always joined as `scheme://host` plus the parsed path,
without a leading-slash check. -/
def imgLoopLegacy (s : Scraper) (st : ScanState) :
    List Attr → Except ScrapeError ScanState
  | [] => .ok st
  | a :: t =>
    if cleanStr a.key == "src" then
      match urlParse a.val with
      | none => .error .urlParseError
      | some u =>
        if !isAbs u then
          imgLoopLegacy s { st with preview := { st.preview with
            Images := st.preview.Images ++
              [s.Url.scheme ++ "://" ++ s.Url.host ++ u.path] } } t
        else
          imgLoopLegacy s { st with preview := { st.preview with
            Images := st.preview.Images ++ [a.val] } } t
    else imgLoopLegacy s st t

/-- The legacy tag switch (goscraper.go lines 153-239), again except
for the `title` start-tag lookahead. -/
def handleTagTokenLegacy (s : Scraper) (st : ScanState) (tok : Token) :
    Except ScrapeError ScanState :=
  match tok.data with
  | "head" => .ok (if tok.typ = .endTag then { st with headPassed := true } else st)
  | "body" => .ok { st with headPassed := true }
  | "link" => linkLoopLegacy st.link false "" st tok.attr
  | "meta" => handleMetaLegacy s st tok
  | "img" => imgLoopLegacy s st tok.attr
  | _ => .ok st

/-- The legacy token loop (goscraper.go lines 143-266).  Its end
checks coincide with `loopCheck` (the early-stop condition at line 262
tests the title length twice, which is logically the same test). -/
def scanLoopLegacy (s : Scraper) (st : ScanState) : List Token → ScanOutcome
  | [] => .done st
  | tok :: rest =>
    if !isTagType tok.typ then scanLoopLegacy s st rest
    else if tok.data == "title" && tok.typ = .startTag then
      match rest with
      | [] =>
        let st1 := setTitleIfEmpty st ""
        match loopCheck s st1 with
        | some out => out
        | none => .done st1
      | next :: rest2 =>
        let st1 := setTitleIfEmpty st next.data
        match loopCheck s st1 with
        | some out => out
        | none => scanLoopLegacy s st1 rest2
    else
      match handleTagTokenLegacy s st tok with
      | .error e => .err e
      | .ok st1 =>
        match loopCheck s st1 with
        | some out => out
        | none => scanLoopLegacy s st1 rest

/-- Legacy initial scan state (goscraper.go lines 140-142): image list
reset and link captured, with no further defaults. -/
def initScanStateLegacy (doc : Document) : ScanState :=
  { preview := { doc.preview with Images := [] }
    link := doc.preview.Link }

/-! ## Claim-side definitions for the fragment rewrite (claim C6)

These two definitions are written from the specification's words, not
from the source, to be compared with `toFragmentReplaced`. -/

/-- Literal percent-encoding of one character: `%XX` for each of its
UTF-8 bytes. -/
def specPercentEncodeChar (c : Char) : List Char :=
  ((utf8Bytes c).map percentByte).flatten

/-- Claim C6's character policy, verbatim: drop a character whose byte
value is 0-31 or 127; percent-encode it when its byte value is space,
`#`, `%`, `&`, `+`, or at least 127; keep it literally otherwise. -/
def specEscapePayload : List Char → List Char
  | [] => []
  | c :: t =>
    let b := c.toNat % 256
    if b ≤ 31 || b = 127 then specEscapePayload t
    else if b = 32 || b = 35 || b = 37 || b = 38 || b = 43 || 127 ≤ b then
      specPercentEncodeChar c ++ specEscapePayload t
    else c :: specEscapePayload t

/-- Claim C6's rewrite, verbatim: the payload is everything after the
first `#!`; the token `_escaped_fragment_=` plus the escaped payload
replaces the whole `#!...` tail, preceded by `?` (no query) or `&`. -/
def specFragmentRewrite (decoded : List Char) (hasQ : Bool) : List Char :=
  let p : List Char := if hasQ then ['&'] else ['?']
  match hashBangSplit decoded with
  | some pr => pr.1 ++ p ++ EscapedFragment.data ++ specEscapePayload pr.2
  | none => decoded ++ p ++ EscapedFragment.data

/-- The amended character policy: same byte classes, but an escaped
character goes through Go query escaping of its UTF-8 bytes (so a
literal space becomes `+`, everything else `%XX`). -/
def specEscapePayloadAmended : List Char → List Char
  | [] => []
  | c :: t =>
    let b := c.toNat % 256
    if b ≤ 31 || b = 127 then specEscapePayloadAmended t
    else if b = 32 || b = 35 || b = 37 || b = 38 || b = 43 || 127 ≤ b then
      (queryEscapeChar c).data ++ specEscapePayloadAmended t
    else c :: specEscapePayloadAmended t

/-- The amended rewrite: the payload stops at the first newline (the
regular expression's `.` does not cross it); the replaced portion is
`#!` plus that payload only, so anything from the newline on stays in
place after the substituted token. -/
def specFragmentRewriteAmended (decoded : List Char) (hasQ : Bool) : List Char :=
  let p : List Char := if hasQ then ['&'] else ['?']
  match hashBangSplit decoded with
  | some pr =>
    let payload := pr.2.takeWhile (· ≠ '\n')
    let tail := pr.2.dropWhile (· ≠ '\n')
    pr.1 ++ p ++ EscapedFragment.data ++ specEscapePayloadAmended payload ++ tail
  | none => decoded ++ p ++ EscapedFragment.data

/-! ## Observation helpers for stating results -/

/-- Title of a completed scan. -/
def outcomeTitle : ScanOutcome → Option String
  | .done st => some st.preview.Title
  | _ => none

/-- Image list of a completed scan. -/
def outcomeImages : ScanOutcome → Option (List String)
  | .done st => some st.preview.Images
  | _ => none

/-- Icon of a completed scan. -/
def outcomeIcon : ScanOutcome → Option String
  | .done st => some st.preview.Icon
  | _ => none

/-- Whether a pipeline result carries a document (no error). -/
def isOkResult : Except ScrapeError Document × Scraper → Bool
  | (.ok _, _) => true
  | (.error _, _) => false

/-! ## Budget lemmas needed for the termination of `parseDocument` -/

/-- `toFragmentUrl` never touches the redirect budget. -/
theorem toFragmentUrl_maxRedirect (s : Scraper) :
    ((toFragmentUrl s).2).MaxRedirect = s.MaxRedirect := by
  unfold toFragmentUrl
  split
  · rfl
  · dsimp only
    split <;> rfl

/-- The pre-fetch updates of `getDocument` decrement the budget by
exactly one, through the 64-bit wrap. -/
theorem getDocumentPrep_maxRedirect (s : Scraper) :
    (getDocumentPrep s).MaxRedirect = intWrap64 (s.MaxRedirect - 1) := by
  unfold getDocumentPrep
  dsimp only
  split_ifs <;> simp_all [toFragmentUrl_maxRedirect]

/-- `getDocument` decrements the redirect budget by exactly one,
through the 64-bit wrap. -/
theorem getDocument_maxRedirect (s : Scraper) (f : Fetch) :
    ((getDocument s f).2).MaxRedirect = intWrap64 (s.MaxRedirect - 1) := by
  unfold getDocument
  dsimp only
  split
  · exact getDocumentPrep_maxRedirect s
  · split_ifs <;> simp [getDocumentPrep_maxRedirect]

/-- Off the minimum `int` value, the wrapped decrement really lowers
the budget: the wrap can only move a value downwards when its argument
is at least `-2^63`. -/
theorem getDocument_maxRedirect_lt (s : Scraper) (f : Fetch)
    (h : -9223372036854775808 < s.MaxRedirect) :
    ((getDocument s f).2).MaxRedirect < s.MaxRedirect := by
  have hm := getDocument_maxRedirect s f
  unfold intWrap64 at hm
  omega

/-- Whether a scan outcome is a redirect request. -/
def ScanOutcome.isRedirect : ScanOutcome → Bool
  | .canonicalRedirect _ => true
  | .fragmentRedirect => true
  | _ => false

/-- A redirect outcome of `loopCheck` implies a positive budget. -/
theorem loopCheck_redirect_pos (s : Scraper) (st : ScanState) (out : ScanOutcome)
    (h : loopCheck s st = some out) (hr : out.isRedirect = true) :
    0 < s.MaxRedirect := by
  unfold loopCheck at h
  split_ifs at h with h1 h2 h3
  · simp only [Bool.and_eq_true, decide_eq_true_eq] at h1
    exact h1.2
  · simp only [Bool.and_eq_true, decide_eq_true_eq] at h2
    exact h2.2
  · cases h
    simp [ScanOutcome.isRedirect] at hr

/-- A redirect outcome of `scanLoop` implies a positive budget
(auxiliary form with a length bound for the induction, since the
title lookahead skips a token). -/
theorem scanLoop_redirect_pos_aux (s : Scraper) :
    ∀ (n : Nat) (ts : List Token) (st : ScanState), ts.length ≤ n →
      (scanLoop s st ts).isRedirect = true → 0 < s.MaxRedirect := by
  intro n
  induction n with
  | zero =>
    intro ts st hlen hr
    have hnil : ts = [] := List.eq_nil_of_length_eq_zero (Nat.le_zero.mp hlen)
    subst hnil
    simp [scanLoop, ScanOutcome.isRedirect] at hr
  | succ n ihn =>
    intro ts st hlen hr
    cases ts with
    | nil => simp [scanLoop, ScanOutcome.isRedirect] at hr
    | cons tok rest =>
      have hlen' : rest.length ≤ n := by
        simp only [List.length_cons] at hlen
        omega
      rw [scanLoop.eq_def] at hr
      dsimp only at hr
      split at hr
      · exact ihn rest st hlen' hr
      · split at hr
        · split at hr
          · split at hr
            · exact loopCheck_redirect_pos s _ _ (by assumption) hr
            · simp [ScanOutcome.isRedirect] at hr
          · split at hr
            · exact loopCheck_redirect_pos s _ _ (by assumption) hr
            · refine ihn _ _ ?_ hr
              simp only [List.length_cons] at hlen'
              omega
        · split at hr
          · simp [ScanOutcome.isRedirect] at hr
          · split at hr
            · exact loopCheck_redirect_pos s _ _ (by assumption) hr
            · exact ihn rest _ hlen' hr

/-- A redirect outcome of `scanLoop` implies a positive budget. -/
theorem scanLoop_redirect_pos (s : Scraper) (ts : List Token) (st : ScanState)
    (hr : (scanLoop s st ts).isRedirect = true) : 0 < s.MaxRedirect :=
  scanLoop_redirect_pos_aux s ts.length ts st (Nat.le_refl _) hr

/-- Go `Scraper.parseDocument` (lines 287-458): run the token loop; on
a fired canonical redirect, absolutize the target (aborting on a parse
failure), move the session to it, clear the fragment URL, re-fetch and
restart on the new document; on a fired fragment redirect, rewrite the
URL (error discarded, line 442), re-fetch and restart.  Termination is
by the redirect budget, which every re-fetch decrements and whose
positivity the loop checks before firing a redirect. -/
def parseDocument (s : Scraper) (f : Fetch) (doc : Document) :
    Except ScrapeError Document × Scraper :=
  match h : scanLoop s (initScanState s doc) doc.body with
  | .done st => (.ok { doc with preview := st.preview }, s)
  | .err e => (.error e, s)
  | .canonicalRedirect cu =>
    match absolutizeCanonical s cu with
    | none => (.error .urlParseError, s)
    | some cu2 =>
      match (getDocument { s with Url := cu2, EscapedFragmentUrl := none } f).1 with
      | .error e => (.error e, (getDocument { s with Url := cu2, EscapedFragmentUrl := none } f).2)
      | .ok fdoc =>
        parseDocument (getDocument { s with Url := cu2, EscapedFragmentUrl := none } f).2 f fdoc
  | .fragmentRedirect =>
    match (getDocument (toFragmentUrl s).2 f).1 with
    | .error e => (.error e, (getDocument (toFragmentUrl s).2 f).2)
    | .ok fdoc => parseDocument (getDocument (toFragmentUrl s).2 f).2 f fdoc
termination_by s.MaxRedirect.toNat
decreasing_by
  · have hpos : 0 < s.MaxRedirect :=
      scanLoop_redirect_pos s doc.body (initScanState s doc) (by rw [h]; rfl)
    have hm := getDocument_maxRedirect { s with Url := cu2, EscapedFragmentUrl := none } f
    simp only at hm
    unfold intWrap64 at hm
    omega
  · have hpos : 0 < s.MaxRedirect :=
      scanLoop_redirect_pos s doc.body (initScanState s doc) (by rw [h]; rfl)
    have hm := getDocument_maxRedirect (toFragmentUrl s).2 f
    rw [toFragmentUrl_maxRedirect] at hm
    unfold intWrap64 at hm
    omega

/-- Go `Scraper.Scrape` (lines 127-137): fetch then parse; the public
`Scrape(uri, maxRedirect, options)` helper only adds the initial
`url.Parse` of the target. -/
def Scrape (s : Scraper) (f : Fetch) : Except ScrapeError Document × Scraper :=
  match getDocument s f with
  | (.error e, s1) => (.error e, s1)
  | (.ok doc, s1) => parseDocument s1 f doc

/-! ## Unfolding lemmas for `parseDocument` -/

/-- When the scan completes, `parseDocument` returns its preview and
leaves the scraper untouched. -/
theorem parseDocument_done (s : Scraper) (f : Fetch) (doc : Document)
    (st : ScanState) (h : scanLoop s (initScanState s doc) doc.body = .done st) :
    parseDocument s f doc = (.ok { doc with preview := st.preview }, s) := by
  rw [parseDocument.eq_def]
  split
  · rename_i st2 h2
    rw [h] at h2
    cases h2
    rfl
  · rename_i e h2
    rw [h] at h2
    cases h2
  · rename_i cu h2
    rw [h] at h2
    cases h2
  · rename_i h2
    rw [h] at h2
    cases h2

/-- When the scan errors, `parseDocument` propagates the error. -/
theorem parseDocument_errCase (s : Scraper) (f : Fetch) (doc : Document)
    (e : ScrapeError) (h : scanLoop s (initScanState s doc) doc.body = .err e) :
    parseDocument s f doc = (.error e, s) := by
  rw [parseDocument.eq_def]
  split
  · rename_i st2 h2
    rw [h] at h2
    cases h2
  · rename_i e2 h2
    rw [h] at h2
    cases h2
    rfl
  · rename_i cu h2
    rw [h] at h2
    cases h2
  · rename_i h2
    rw [h] at h2
    cases h2

/-- Unfolding of the canonical-redirect branch. -/
theorem parseDocument_canonical (s : Scraper) (f : Fetch) (doc : Document)
    (cu : URL) (h : scanLoop s (initScanState s doc) doc.body = .canonicalRedirect cu) :
    parseDocument s f doc =
      match absolutizeCanonical s cu with
      | none => (.error .urlParseError, s)
      | some cu2 =>
        match (getDocument { s with Url := cu2, EscapedFragmentUrl := none } f).1 with
        | .error e =>
          (.error e, (getDocument { s with Url := cu2, EscapedFragmentUrl := none } f).2)
        | .ok fdoc =>
          parseDocument (getDocument { s with Url := cu2, EscapedFragmentUrl := none } f).2
            f fdoc := by
  rw [parseDocument.eq_def]
  split
  · rename_i st2 h2
    rw [h] at h2
    cases h2
  · rename_i e2 h2
    rw [h] at h2
    cases h2
  · rename_i cu2 h2
    rw [h] at h2
    cases h2
    rfl
  · rename_i h2
    rw [h] at h2
    cases h2

/-- Unfolding of the fragment-redirect branch. -/
theorem parseDocument_fragment (s : Scraper) (f : Fetch) (doc : Document)
    (h : scanLoop s (initScanState s doc) doc.body = .fragmentRedirect) :
    parseDocument s f doc =
      match (getDocument (toFragmentUrl s).2 f).1 with
      | .error e => (.error e, (getDocument (toFragmentUrl s).2 f).2)
      | .ok fdoc => parseDocument (getDocument (toFragmentUrl s).2 f).2 f fdoc := by
  rw [parseDocument.eq_def]
  split
  · rename_i st2 h2
    rw [h] at h2
    cases h2
  · rename_i e2 h2
    rw [h] at h2
    cases h2
  · rename_i cu2 h2
    rw [h] at h2
    cases h2
  · rfl

/-! ## Budget exhaustion lemmas -/

/-- With a non-positive remaining budget the loop never reports a
redirect. -/
theorem scanLoop_no_redirect (s : Scraper) (st : ScanState) (ts : List Token)
    (hle : s.MaxRedirect ≤ 0) : (scanLoop s st ts).isRedirect = false := by
  cases hb : (scanLoop s st ts).isRedirect
  · rfl
  · exact absurd (scanLoop_redirect_pos s ts st hb) (by omega)

/-- With a non-positive remaining budget, `parseDocument` never
consults the fetch oracle: its result is the same for any two
transports. -/
theorem parseDocument_fetch_indep (s : Scraper) (f g : Fetch) (doc : Document)
    (hle : s.MaxRedirect ≤ 0) : parseDocument s f doc = parseDocument s g doc := by
  rcases hsc : scanLoop s (initScanState s doc) doc.body with st | e | cu | _
  · rw [parseDocument_done s f doc st hsc, parseDocument_done s g doc st hsc]
  · rw [parseDocument_errCase s f doc e hsc, parseDocument_errCase s g doc e hsc]
  · have hno := scanLoop_no_redirect s (initScanState s doc) doc.body hle
    rw [hsc] at hno
    simp [ScanOutcome.isRedirect] at hno
  · have hno := scanLoop_no_redirect s (initScanState s doc) doc.body hle
    rw [hsc] at hno
    simp [ScanOutcome.isRedirect] at hno

/-- The redirect budget never increases across `parseDocument`
(auxiliary form with a fuel bound for the induction). -/
theorem parseDocument_maxRedirect_le_aux :
    ∀ (n : Nat) (s : Scraper) (f : Fetch) (doc : Document),
      s.MaxRedirect.toNat ≤ n →
      ((parseDocument s f doc).2).MaxRedirect ≤ s.MaxRedirect := by
  intro n
  induction n with
  | zero =>
    intro s f doc hn
    have hle : s.MaxRedirect ≤ 0 := by omega
    rcases hsc : scanLoop s (initScanState s doc) doc.body with st | e | cu | _
    · rw [parseDocument_done s f doc st hsc]
    · rw [parseDocument_errCase s f doc e hsc]
    · exact absurd (scanLoop_redirect_pos s doc.body _ (by rw [hsc]; rfl)) (by omega)
    · exact absurd (scanLoop_redirect_pos s doc.body _ (by rw [hsc]; rfl)) (by omega)
  | succ n ih =>
    intro s f doc hn
    rcases hsc : scanLoop s (initScanState s doc) doc.body with st | e | cu | _
    · rw [parseDocument_done s f doc st hsc]
    · rw [parseDocument_errCase s f doc e hsc]
    · rw [parseDocument_canonical s f doc cu hsc]
      have hpos : 0 < s.MaxRedirect :=
        scanLoop_redirect_pos s doc.body _ (by rw [hsc]; rfl)
      rcases habs : absolutizeCanonical s cu with _ | cu2
      · simp
      · simp only
        rcases hg : getDocument { s with Url := cu2, EscapedFragmentUrl := none } f
          with ⟨res, s2⟩
        have hs2 : s2.MaxRedirect ≤ s.MaxRedirect - 1 := by
          have h3 := getDocument_maxRedirect
            { s with Url := cu2, EscapedFragmentUrl := none } f
          rw [hg] at h3
          have h5 : s2.MaxRedirect = intWrap64 (s.MaxRedirect - 1) := h3
          unfold intWrap64 at h5
          omega
        cases res with
        | error e =>
          simp only [hg]
          omega
        | ok fdoc =>
          simp only [hg]
          have h4 := ih s2 f fdoc (by omega)
          omega
    · rw [parseDocument_fragment s f doc hsc]
      have hpos : 0 < s.MaxRedirect :=
        scanLoop_redirect_pos s doc.body _ (by rw [hsc]; rfl)
      rcases hg : getDocument (toFragmentUrl s).2 f with ⟨res, s2⟩
      have hs2 : s2.MaxRedirect ≤ s.MaxRedirect - 1 := by
        have h3 := getDocument_maxRedirect (toFragmentUrl s).2 f
        rw [hg, toFragmentUrl_maxRedirect] at h3
        have h5 : s2.MaxRedirect = intWrap64 (s.MaxRedirect - 1) := h3
        unfold intWrap64 at h5
        omega
      cases res with
      | error e =>
        simp only [hg]
        omega
      | ok fdoc =>
        simp only [hg]
        have h4 := ih s2 f fdoc (by omega)
        omega

/-- The redirect budget never increases across `parseDocument`: the
loop re-fetches only after checking positivity, where the wrapped
decrement really decrements. -/
theorem parseDocument_maxRedirect_le (s : Scraper) (f : Fetch) (doc : Document) :
    ((parseDocument s f doc).2).MaxRedirect ≤ s.MaxRedirect :=
  parseDocument_maxRedirect_le_aux s.MaxRedirect.toNat s f doc (Nat.le_refl _)

/-- The redirect budget does not increase across `Scrape` as long as
it does not start at the minimum `int` value, where the unconditional
decrement of the initial fetch wraps upward. -/
theorem scrape_maxRedirect_le (s : Scraper) (f : Fetch)
    (h : -9223372036854775808 < s.MaxRedirect) :
    ((Scrape s f).2).MaxRedirect ≤ s.MaxRedirect := by
  unfold Scrape
  rcases hg : getDocument s f with ⟨res, s1⟩
  have hs1 : s1.MaxRedirect ≤ s.MaxRedirect - 1 := by
    have h3 := getDocument_maxRedirect s f
    rw [hg] at h3
    have h5 : s1.MaxRedirect = intWrap64 (s.MaxRedirect - 1) := h3
    unfold intWrap64 at h5
    omega
  cases res with
  | error e => simp only; omega
  | ok doc =>
    simp only
    have h4 := parseDocument_maxRedirect_le s1 f doc
    omega

/-! ## Structure of the fragment rewrite (claim C6) -/

/-- The character policies of the source and of the amended claim
coincide. -/
theorem escapePayload_eq_amended (l : List Char) :
    escapePayload l = specEscapePayloadAmended l := by
  induction l with
  | nil => rfl
  | cons c t ih =>
    have h255 : decide (c.toNat % 256 ≤ 255) = true := by
      simp only [decide_eq_true_eq]
      omega
    have hav : avoidByte (c.toNat % 256) =
        (decide (c.toNat % 256 ≤ 31) || decide (c.toNat % 256 = 127)) := by
      unfold avoidByte
      exact Bool.or_comm _ _
    have hes : escapeByte (c.toNat % 256) =
        (decide (c.toNat % 256 = 32) || decide (c.toNat % 256 = 35) ||
          decide (c.toNat % 256 = 37) || decide (c.toNat % 256 = 38) ||
          decide (c.toNat % 256 = 43) || decide (127 ≤ c.toNat % 256)) := by
      unfold escapeByte
      rw [h255, Bool.and_true]
    rw [escapePayload, specEscapePayloadAmended]
    rw [hav, hes]
    split_ifs <;> simp [ih]

/-- Case analysis for the first `#!` occurrence: either there is none
(and both search helpers agree on that), or the string splits as
`pre ++ #! ++ rest` with `pre` free of `#!`. -/
theorem hashBang_cases (d : List Char) :
    (hashBangSplit d = none ∧ afterHashBang d = none) ∨
    ∃ pre rest, hashBangSplit d = some (pre, rest) ∧ afterHashBang d = some rest ∧
      d = pre ++ '#' :: '!' :: rest ∧ afterHashBang pre = none := by
  induction d with
  | nil => exact Or.inl ⟨rfl, rfl⟩
  | cons a t ih =>
    by_cases hmatch : (a == '#' && t.head? == some '!') = true
    · refine Or.inr ⟨[], t.tail, ?_, ?_, ?_, rfl⟩
      · rw [hashBangSplit, if_pos hmatch]
      · rw [afterHashBang, if_pos hmatch]
      · simp only [Bool.and_eq_true, beq_iff_eq] at hmatch
        obtain ⟨ha, hh⟩ := hmatch
        subst ha
        cases t with
        | nil => simp at hh
        | cons b t2 =>
          simp only [List.head?_cons, Option.some.injEq] at hh
          subst hh
          rfl
    · have hmf : (a == '#' && t.head? == some '!') = false :=
        Bool.not_eq_true _ ▸ (by simpa using hmatch)
      rcases ih with ⟨hs, ha⟩ | ⟨pre, rest, hs, ha, hd, hpre⟩
      · refine Or.inl ⟨?_, ?_⟩
        · rw [hashBangSplit, if_neg (by simp [hmf]), hs]
          rfl
        · rw [afterHashBang, if_neg (by simp [hmf]), ha]
      · refine Or.inr ⟨a :: pre, rest, ?_, ?_, ?_, ?_⟩
        · rw [hashBangSplit, if_neg (by simp [hmf]), hs]
          rfl
        · rw [afterHashBang, if_neg (by simp [hmf]), ha]
        · rw [hd]
          rfl
        · rw [afterHashBang, if_neg ?_, hpre]
          cases pre with
          | nil => simp
          | cons b pre2 =>
            have ht : t = b :: (pre2 ++ '#' :: '!' :: rest) := by
              simpa using hd
            rw [ht] at hmf
            simpa using hmf

/-- Replacing the first occurrence of `#! ++ payload` in a string of
the shape `pre ++ #! ++ payload ++ tail`, with `pre` free of `#!`,
rewrites exactly the middle. -/
theorem replaceFirst_append (payload tail repl : List Char) :
    ∀ pre : List Char, afterHashBang pre = none →
      replaceFirst (pre ++ '#' :: '!' :: (payload ++ tail)) ('#' :: '!' :: payload) repl =
        pre ++ repl ++ tail := by
  intro pre
  induction pre with
  | nil =>
    intro _
    rw [List.nil_append, replaceFirst]
    rw [if_pos ?hpos]
    case hpos =>
      simp only [List.isPrefixOf_iff_prefix]
      exact ⟨tail, by simp⟩
    simp only [List.length_cons]
    rw [List.drop_succ_cons, List.drop_succ_cons, List.drop_left]
    simp
  | cons a pre' ih =>
    intro hpre
    have hpre' : afterHashBang pre' = none := by
      rw [afterHashBang] at hpre
      split at hpre
      · cases hpre
      · exact hpre
    have hcond : (a == '#' && pre'.head? == some '!') = false := by
      rw [afterHashBang] at hpre
      split at hpre
      · cases hpre
      · next hneg => exact Bool.of_not_eq_true hneg
    rw [List.cons_append, replaceFirst, if_neg ?hneg]
    case hneg =>
      simp only [List.isPrefixOf_iff_prefix]
      intro hpref
      rcases hpref with ⟨rem, hrem⟩
      cases pre' with
      | nil =>
        simp only [List.nil_append] at hrem
        rcases List.cons.inj hrem with ⟨h1, hrem2⟩
        rcases List.cons.inj hrem2 with ⟨h2, _⟩
        exact absurd h2.symm (by decide)
      | cons b pre2 =>
        simp only [List.cons_append] at hrem
        rcases List.cons.inj hrem with ⟨h1, hrem2⟩
        rcases List.cons.inj hrem2 with ⟨h2, _⟩
        subst h1
        subst h2
        simp at hcond
    rw [ih hpre']
    rfl

/-! ## Error classification (claim C7) -/

/-- `linkLoop` can fail only with a URL parse error. -/
theorem linkLoop_error (link : String) :
    ∀ (attrs : List Attr) (canonical hasIcon : Bool) (href : String)
      (st : ScanState) (e : ScrapeError),
      linkLoop link canonical hasIcon href st attrs = .error e →
      e = .urlParseError := by
  intro attrs
  induction attrs with
  | nil =>
    intro c hi hr st e h
    cases h
  | cons a t ih =>
    intro c hi hr st e h
    rw [linkLoop] at h
    dsimp only at h
    split at h
    · cases h
      rfl
    · split at h
      · exact ih _ _ _ _ _ h
      · exact ih _ _ _ _ _ h

/-- `handleMeta` can fail only with a URL parse error. -/
theorem handleMeta_error (s : Scraper) (st : ScanState) (tok : Token)
    (e : ScrapeError) (h : handleMeta s st tok = .error e) : e = .urlParseError := by
  rw [handleMeta] at h
  dsimp only at h
  repeat' split at h
  all_goals try cases h
  all_goals rfl

/-- `imgLoop` can fail only with a URL parse error or the `Path[0]`
panic. -/
theorem imgLoop_error (s : Scraper) :
    ∀ (attrs : List Attr) (st : ScanState) (e : ScrapeError),
      imgLoop s st attrs = .error e →
      e = .urlParseError ∨ e = .pathIndexPanic := by
  intro attrs
  induction attrs with
  | nil =>
    intro st e h
    cases h
  | cons a t ih =>
    intro st e h
    rw [imgLoop] at h
    split at h
    · split at h
      · cases h
        exact Or.inl rfl
      · split at h
        · split at h
          · cases h
            exact Or.inr rfl
          · exact ih _ _ h
        · exact ih _ _ h
    · exact ih _ _ h

/-- A tag handler never produces a decode error. -/
theorem handleTagToken_error (s : Scraper) (st : ScanState) (tok : Token)
    (e : ScrapeError) (h : handleTagToken s st tok = .error e) :
    e ≠ .urlDecodeError := by
  rw [handleTagToken] at h
  split at h <;> try cases h
  · intro hc
    subst hc
    exact absurd (linkLoop_error _ _ _ _ _ _ _ h) (by decide)
  · intro hc
    subst hc
    exact absurd (handleMeta_error _ _ _ _ h) (by decide)
  · intro hc
    subst hc
    rcases imgLoop_error _ _ _ _ h with h2 | h2 <;> exact absurd h2 (by decide)

/-- The scan loop never produces a decode error. -/
theorem scanLoop_error_aux (s : Scraper) :
    ∀ (n : Nat) (ts : List Token) (st : ScanState) (e : ScrapeError),
      ts.length ≤ n → scanLoop s st ts = .err e → e ≠ .urlDecodeError := by
  intro n
  induction n with
  | zero =>
    intro ts st e hlen h
    have hnil : ts = [] := List.eq_nil_of_length_eq_zero (Nat.le_zero.mp hlen)
    subst hnil
    cases h
  | succ n ihn =>
    intro ts st e hlen h
    cases ts with
    | nil => cases h
    | cons tok rest =>
      have hlen' : rest.length ≤ n := by
        simp only [List.length_cons] at hlen
        omega
      rw [scanLoop.eq_def] at h
      dsimp only at h
      split at h
      · exact ihn rest st e hlen' h
      · split at h
        · split at h
          · split at h
            · rename_i out heq
              subst h
              intro hc
              subst hc
              exact absurd heq (by
                unfold loopCheck
                split_ifs <;> simp)
            · cases h
          · split at h
            · rename_i out heq
              subst h
              intro hc
              subst hc
              exact absurd heq (by
                unfold loopCheck
                split_ifs <;> simp)
            · refine ihn _ _ e ?_ h
              simp only [List.length_cons] at hlen'
              omega
        · split at h
          · cases h
            exact handleTagToken_error _ _ _ _ (by assumption)
          · split at h
            · rename_i out heq
              subst h
              intro hc
              subst hc
              exact absurd heq (by
                unfold loopCheck
                split_ifs <;> simp)
            · exact ihn _ _ e hlen' h

/-- The scan loop never produces a decode error. -/
theorem scanLoop_error (s : Scraper) (ts : List Token) (st : ScanState)
    (e : ScrapeError) (h : scanLoop s st ts = .err e) : e ≠ .urlDecodeError :=
  scanLoop_error_aux s ts.length ts st e (Nat.le_refl _) h

/-- `getDocument` can fail only with a transport error. -/
theorem getDocument_error (s : Scraper) (f : Fetch) (e : ScrapeError)
    (h : (getDocument s f).1 = .error e) : e = .transportError := by
  unfold getDocument at h
  dsimp only at h
  split at h
  · cases h
    rfl
  · cases h

/-- `parseDocument` never returns a decode error (auxiliary form). -/
theorem parseDocument_no_decode_aux :
    ∀ (n : Nat) (s : Scraper) (f : Fetch) (doc : Document),
      s.MaxRedirect.toNat ≤ n →
      (parseDocument s f doc).1 ≠ .error .urlDecodeError := by
  intro n
  induction n with
  | zero =>
    intro s f doc hn
    rcases hsc : scanLoop s (initScanState s doc) doc.body with st | e | cu | _
    · rw [parseDocument_done s f doc st hsc]
      simp
    · rw [parseDocument_errCase s f doc e hsc]
      simp only
      intro hc
      cases hc
      exact absurd rfl (scanLoop_error s doc.body _ _ hsc)
    · exact absurd (scanLoop_redirect_pos s doc.body _ (by rw [hsc]; rfl)) (by omega)
    · exact absurd (scanLoop_redirect_pos s doc.body _ (by rw [hsc]; rfl)) (by omega)
  | succ n ih =>
    intro s f doc hn
    rcases hsc : scanLoop s (initScanState s doc) doc.body with st | e | cu | _
    · rw [parseDocument_done s f doc st hsc]
      simp
    · rw [parseDocument_errCase s f doc e hsc]
      simp only
      intro hc
      cases hc
      exact absurd rfl (scanLoop_error s doc.body _ _ hsc)
    · rw [parseDocument_canonical s f doc cu hsc]
      have hpos : 0 < s.MaxRedirect :=
        scanLoop_redirect_pos s doc.body _ (by rw [hsc]; rfl)
      rcases habs : absolutizeCanonical s cu with _ | cu2
      · simp
      · simp only
        rcases hg : getDocument { s with Url := cu2, EscapedFragmentUrl := none } f
          with ⟨res, s2⟩
        have hs2 : s2.MaxRedirect ≤ s.MaxRedirect - 1 := by
          have h3 := getDocument_maxRedirect
            { s with Url := cu2, EscapedFragmentUrl := none } f
          rw [hg] at h3
          have h5 : s2.MaxRedirect = intWrap64 (s.MaxRedirect - 1) := h3
          unfold intWrap64 at h5
          omega
        cases res with
        | error e2 =>
          simp only [hg]
          intro hc
          cases hc
          have := getDocument_error { s with Url := cu2, EscapedFragmentUrl := none } f
            _ (by rw [hg])
          exact absurd this (by decide)
        | ok fdoc =>
          simp only [hg]
          exact ih s2 f fdoc (by omega)
    · rw [parseDocument_fragment s f doc hsc]
      have hpos : 0 < s.MaxRedirect :=
        scanLoop_redirect_pos s doc.body _ (by rw [hsc]; rfl)
      rcases hg : getDocument (toFragmentUrl s).2 f with ⟨res, s2⟩
      have hs2 : s2.MaxRedirect ≤ s.MaxRedirect - 1 := by
        have h3 := getDocument_maxRedirect (toFragmentUrl s).2 f
        rw [hg, toFragmentUrl_maxRedirect] at h3
        have h5 : s2.MaxRedirect = intWrap64 (s.MaxRedirect - 1) := h3
        unfold intWrap64 at h5
        omega
      cases res with
      | error e2 =>
        simp only [hg]
        intro hc
        cases hc
        have := getDocument_error (toFragmentUrl s).2 f _ (by rw [hg])
        exact absurd this (by decide)
      | ok fdoc =>
        simp only [hg]
        exact ih s2 f fdoc (by omega)

/-- `Scrape` never fails with a decode error. -/
theorem scrape_no_decode (s : Scraper) (f : Fetch) :
    (Scrape s f).1 ≠ .error .urlDecodeError := by
  unfold Scrape
  rcases hg : getDocument s f with ⟨res, s1⟩
  cases res with
  | error e =>
    simp only
    intro hc
    cases hc
    have := getDocument_error s f _ (by rw [hg])
    exact absurd this (by decide)
  | ok doc =>
    simp only
    exact parseDocument_no_decode_aux s1.MaxRedirect.toNat s1 f doc (Nat.le_refl _)

/-- Unfolding of the loop at a `title` start tag followed by another
token: the following token is consumed unconditionally and its data is
written as the title when the title is still empty, then the end
checks run. -/
theorem scanLoop_title_cons (s : Scraper) (st : ScanState) (attrs : List Attr)
    (next : Token) (rest : List Token) :
    scanLoop s st ({ typ := .startTag, data := "title", attr := attrs } :: next :: rest) =
      (match loopCheck s (setTitleIfEmpty st next.data) with
       | some out => out
       | none => scanLoop s (setTitleIfEmpty st next.data) rest) := rfl

/-- A string has length zero exactly when it is empty. -/
theorem stringLength_zero (s : String) : s.length = 0 ↔ s = "" := by
  rw [String.ext_iff, ← String.length_data]
  exact List.length_eq_zero

/-! ## Concrete fixtures used by the individual claims -/

/-- A session at `https://ex.com/p` with an exhausted redirect
budget. -/
def exScraper : Scraper :=
  { Url := { scheme := "https", host := "ex.com", path := "/p" }, MaxRedirect := 0 }

/-- A document with the given token body and a default preview. -/
def mkDoc (ts : List Token) : Document :=
  { body := ts, preview := {} }

/-- `<title>Hello</title>` followed by `og:title T`. -/
def c1Toks : List Token :=
  [ { typ := .startTag, data := "title" },
    { typ := .textToken, data := "Hello" },
    { typ := .startTag, data := "meta",
      attr := [{ key := "property", val := "og:title" },
               { key := "content", val := "T" }] } ]

/-- A state that already carries a title. -/
def c1WitSt : ScanState :=
  { preview := { Title := "Hello" } }

/-- `og:image` followed by an `<img>` tag. -/
def c4Toks : List Token :=
  [ { typ := .startTag, data := "meta",
      attr := [{ key := "property", val := "og:image" },
               { key := "content", val := "https://o/i.png" }] },
    { typ := .startTag, data := "img",
      attr := [{ key := "src", val := "https://cdn.x/y.png" }] } ]

/-- A state on which `og:image` has already fired. -/
def c4WitSt : ScanState :=
  { preview := { Images := ["https://o/i.png"] }, ogImage := true }

/-- An `<img>` whose src has an empty path component. -/
def c5Toks : List Token :=
  [ { typ := .startTag, data := "img", attr := [{ key := "src", val := "?q=1" }] } ]

/-- `<link rel="icon" href="/fav.png">`. -/
def c8Toks : List Token :=
  [ { typ := .startTag, data := "link",
      attr := [{ key := "rel", val := "icon" },
               { key := "href", val := "/fav.png" }] } ]

/-! ## Claim C1 -/

/-- Claim C1 (counterexample): with `<title>Hello</title>` consumed
before any og:title meta, a later `og:title` content `T` still
overwrites the preview title — the scan of these three tokens ends
with title `"T"`, not `"Hello"`. -/
theorem c1_counterexample :
    outcomeTitle (scanLoop exScraper (initScanState exScraper (mkDoc c1Toks)) c1Toks) =
      some "T" ∧
    ¬ outcomeTitle (scanLoop exScraper (initScanState exScraper (mkDoc c1Toks)) c1Toks) =
      some "Hello" :=
  ⟨rfl, by decide⟩

/-- Claim C1 (amended): first-writer-wins holds only from OG to
literal.  A `<title>` start tag still consumes the following token but
leaves a non-empty Title unchanged, while processing an `og:title`
meta always overwrites the Title — including one previously consumed
from a `<title>` element. -/
theorem c1_amended :
    (∀ (s : Scraper) (st : ScanState) (next : Token) (rest : List Token)
      (attrs : List Attr), st.preview.Title ≠ "" →
      scanLoop s st ({ typ := .startTag, data := "title", attr := attrs } :: next :: rest) =
        (match loopCheck s st with
         | some out => out
         | none => scanLoop s st rest)) ∧
    (∀ (s : Scraper) (st : ScanState) (c : String) (ty : TokenType),
      handleTagToken s st
          { typ := ty
            data := "meta"
            attr := [{ key := "property", val := "og:title" },
                     { key := "content", val := c }] } =
        .ok { st with preview := { st.preview with Title := c } }) := by
  constructor
  · intro s st next rest attrs hne
    have hset : setTitleIfEmpty st next.data = st := by
      unfold setTitleIfEmpty
      rw [if_neg]
      exact fun hc => hne ((stringLength_zero _).mp hc)
    rw [scanLoop_title_cons, hset]
  · intro s st c ty
    rfl

/-- Claim C1 (witness): the amended statement applied at a state
already titled `"Hello"` and at a concrete og:title meta. -/
theorem c1_witness :
    scanLoop exScraper c1WitSt
        [{ typ := .startTag, data := "title" }, { typ := .textToken, data := "X" }] =
      .done c1WitSt ∧
    handleTagToken exScraper c1WitSt
        { typ := .startTag
          data := "meta"
          attr := [{ key := "property", val := "og:title" },
                   { key := "content", val := "T" }] } =
      .ok { c1WitSt with preview := { c1WitSt.preview with Title := "T" } } := by
  constructor
  · rw [c1_amended.1 exScraper c1WitSt { typ := .textToken, data := "X" } [] []
      (by decide)]
    rfl
  · exact c1_amended.2 exScraper c1WitSt "T" TokenType.startTag

/-! ## Claim C4 -/

/-- Claim C4 (counterexample): after `og:image` replaced the image
list with its single URL, the later `<img>` tag still appends — the
scan ends with two images, not one. -/
theorem c4_counterexample :
    outcomeImages (scanLoop exScraper (initScanState exScraper (mkDoc c4Toks)) c4Toks) =
      some ["https://o/i.png", "https://cdn.x/y.png"] ∧
    ¬ outcomeImages (scanLoop exScraper (initScanState exScraper (mkDoc c4Toks)) c4Toks) =
      some ["https://o/i.png"] :=
  ⟨rfl, by decide⟩

/-- Claim C4 (amended): `<img>` tags encountered after an `og:image`
are not ignored — with the og:image flag set, a parseable absolute
src is still appended to the image list. -/
theorem c4_amended :
    ∀ (s : Scraper) (st : ScanState) (v : String) (u : URL),
      st.ogImage = true → urlParse v = some u → isAbs u = true →
      imgLoop s st [{ key := "src", val := v }] =
        .ok { st with preview :=
          { st.preview with Images := st.preview.Images ++ [v] } } := by
  intro s st v u hog hu habs
  rw [imgLoop]
  rw [if_pos (by rfl)]
  rw [hu]
  simp only [habs, Bool.not_true, Bool.false_eq_true, if_false]
  rfl

/-- Claim C4 (witness): the amended statement at a state carrying the
OG image and at a concrete absolute `img` source. -/
theorem c4_witness :
    imgLoop exScraper c4WitSt [{ key := "src", val := "https://cdn.x/y.png" }] =
      .ok { c4WitSt with preview := { c4WitSt.preview with
        Images := c4WitSt.preview.Images ++ ["https://cdn.x/y.png"] } } :=
  c4_amended exScraper c4WitSt "https://cdn.x/y.png"
    { scheme := "https", host := "cdn.x", path := "/y.png" } rfl rfl rfl

/-! ## Claim C5 -/

/-- Claim C5: the indexing `imgUrl.Path[0]` is reachable with an empty
path.  `src="?q=1"` parses to a relative URL whose path is empty, and
scanning the tag aborts with the out-of-bounds panic; `parseDocument`
propagates it for any transport. -/
theorem c5_path_panic :
    (urlParse "?q=1").map URL.path = some "" ∧
    (urlParse "?q=1").map isAbs = some false ∧
    scanLoop exScraper (initScanState exScraper (mkDoc c5Toks)) c5Toks =
      .err .pathIndexPanic ∧
    ∀ f : Fetch, parseDocument exScraper f (mkDoc c5Toks) =
      (.error .pathIndexPanic, exScraper) :=
  ⟨rfl, rfl, rfl,
    fun f => parseDocument_errCase exScraper f (mkDoc c5Toks) .pathIndexPanic rfl⟩

/-! ## Claim C8 -/

/-- Claim C8 (counterexample): a relative icon href is stored raw —
`<link rel="icon" href="/fav.png">` on a session at `https://ex.com`
leaves the icon `"/fav.png"`, not `"https://ex.com/fav.png"`. -/
theorem c8_counterexample :
    outcomeIcon (scanLoop exScraper (initScanState exScraper (mkDoc c8Toks)) c8Toks) =
      some "/fav.png" ∧
    ¬ outcomeIcon (scanLoop exScraper (initScanState exScraper (mkDoc c8Toks)) c8Toks) =
      some "https://ex.com/fav.png" :=
  ⟨rfl, by decide⟩

/-- Claim C8 (amended): for a `link` tag carrying a rel value that
contains `icon` (after cleaning) and a non-empty href, the Icon field
is set to the href unchanged — with no absolutization, whether the
href is relative or absolute — in either attribute order. -/
theorem c8_amended :
    ∀ (s : Scraper) (st : ScanState) (relv h : String),
      containsSub (cleanStr relv) "icon" = true → h ≠ "" →
      linkLoop st.link false false "" st
          [{ key := "rel", val := relv }, { key := "href", val := h }] =
        .ok { st with preview := { st.preview with Icon := h } } ∧
      linkLoop st.link false false "" st
          [{ key := "href", val := h }, { key := "rel", val := relv }] =
        .ok { st with preview := { st.preview with Icon := h } } := by
  intro s st relv h hicon hne
  have hnc : (cleanStr relv == "canonical") = false := by
    cases hq : cleanStr relv == "canonical"
    · rfl
    · rw [beq_iff_eq] at hq
      rw [hq] at hicon
      exact absurd hicon (by decide)
  have hlen : decide (0 < h.length) = true := by
    have h0 : h.length ≠ 0 := fun hc => hne ((stringLength_zero h).mp hc)
    simp only [decide_eq_true_eq]
    omega
  have ecr : cleanStr "rel" = "rel" := rfl
  have ech : cleanStr "href" = "href" := rfl
  have eb1 : (("rel" : String) == "rel") = true := rfl
  have eb2 : (("rel" : String) == "href") = false := rfl
  have eb3 : (("href" : String) == "rel") = false := rfl
  have eb4 : (("href" : String) == "href") = true := rfl
  have elen0 : decide (0 < ("" : String).length) = false := rfl
  constructor
  · rw [linkLoop.eq_def]
    dsimp only
    simp only [ecr, ech, eb1, eb2, eb3, eb4, hnc, hicon, hlen, elen0,
      eq_self_iff_true, if_true, Bool.and_false, Bool.false_or, Bool.or_false,
      Bool.false_and, Bool.and_true, Bool.true_and, Bool.false_eq_true, if_false]
    rw [linkLoop.eq_def]
    dsimp only
    simp only [ecr, ech, eb1, eb2, eb3, eb4, hnc, hicon, hlen, elen0,
      eq_self_iff_true, if_true, Bool.and_false, Bool.false_or, Bool.or_false,
      Bool.false_and, Bool.and_true, Bool.true_and, Bool.false_eq_true, if_false]
    rfl
  · rw [linkLoop.eq_def]
    dsimp only
    simp only [ecr, ech, eb1, eb2, eb3, eb4, hnc, hicon, hlen, elen0,
      eq_self_iff_true, if_true, Bool.and_false, Bool.false_or, Bool.or_false,
      Bool.false_and, Bool.and_true, Bool.true_and, Bool.false_eq_true, if_false]
    rw [linkLoop.eq_def]
    dsimp only
    simp only [ecr, ech, eb1, eb2, eb3, eb4, hnc, hicon, hlen, elen0,
      eq_self_iff_true, if_true, Bool.and_false, Bool.false_or, Bool.or_false,
      Bool.false_and, Bool.and_true, Bool.true_and, Bool.false_eq_true, if_false]
    rfl

/-- Claim C8 (witness): the amended statement at concrete data. -/
theorem c8_witness :
    linkLoop (initScanState exScraper (mkDoc [])).link false false ""
        (initScanState exScraper (mkDoc []))
        [{ key := "rel", val := "shortcut icon" }, { key := "href", val := "/f.ico" }] =
      .ok { initScanState exScraper (mkDoc []) with preview :=
        { (initScanState exScraper (mkDoc [])).preview with Icon := "/f.ico" } } :=
  (c8_amended exScraper (initScanState exScraper (mkDoc [])) "shortcut icon" "/f.ico"
    (by decide) (by decide)).1

/-! ## Claim C9 -/

/-- Claim C9 (counterexample): for the parseable relative source
`#frag`, whose path component is empty, no image is appended at all —
the attribute loop aborts with the indexing panic instead of producing
`scheme://host/` as the claim's third case prescribes. -/
theorem c9_counterexample :
    (urlParse "#frag").map isAbs = some false ∧
    (urlParse "#frag").map URL.path = some "" ∧
    imgLoop exScraper (initScanState exScraper (mkDoc []))
        [{ key := "src", val := "#frag" }] =
      .error .pathIndexPanic :=
  ⟨rfl, rfl, rfl⟩

/-- Claim C9 (amended): for a parseable `img` source the appended URL
is the source unchanged when absolute, `scheme://host ++ path` when
relative with a path starting in `/`, and `scheme://host/ ++ path`
when relative with a non-empty path not starting in `/`; a relative
source with an empty path instead hits the indexing panic (claim
C5). -/
theorem c9_amended :
    ∀ (s : Scraper) (st : ScanState) (v : String) (u : URL),
      urlParse v = some u →
      (isAbs u = true →
        imgLoop s st [{ key := "src", val := v }] =
          .ok { st with preview :=
            { st.preview with Images := st.preview.Images ++ [v] } }) ∧
      (isAbs u = false → ∀ (c : Char) (cs : List Char), u.path.data = c :: cs →
        imgLoop s st [{ key := "src", val := v }] =
          .ok { st with preview := { st.preview with Images := st.preview.Images ++
            [if c = '/' then s.Url.scheme ++ "://" ++ s.Url.host ++ u.path
             else s.Url.scheme ++ "://" ++ s.Url.host ++ "/" ++ u.path] } }) := by
  intro s st v u hu
  constructor
  · intro habs
    rw [imgLoop]
    rw [if_pos (by rfl)]
    rw [hu]
    simp only [habs, Bool.not_true, Bool.false_eq_true, if_false]
    rfl
  · intro habs c cs hpath
    rw [imgLoop]
    rw [if_pos (by rfl)]
    rw [hu]
    simp only [habs, Bool.not_false, if_true]
    rw [hpath]
    dsimp only
    split_ifs <;> rfl

/-- Claim C9 (witness): the amended statement at the specification's
own examples — `/a.png` on `https://ex.com` resolves to
`https://ex.com/a.png`, and an absolute source passes through. -/
theorem c9_witness :
    imgLoop exScraper (initScanState exScraper (mkDoc []))
        [{ key := "src", val := "/a.png" }] =
      .ok { initScanState exScraper (mkDoc []) with preview :=
        { (initScanState exScraper (mkDoc [])).preview with
          Images := (initScanState exScraper (mkDoc [])).preview.Images ++
            ["https://ex.com/a.png"] } } ∧
    imgLoop exScraper (initScanState exScraper (mkDoc []))
        [{ key := "src", val := "https://cdn.x/y.png" }] =
      .ok { initScanState exScraper (mkDoc []) with preview :=
        { (initScanState exScraper (mkDoc [])).preview with
          Images := (initScanState exScraper (mkDoc [])).preview.Images ++
            ["https://cdn.x/y.png"] } } := by
  constructor
  · have h := ((c9_amended exScraper (initScanState exScraper (mkDoc [])) "/a.png"
      { path := "/a.png" } rfl).2 rfl '/' "a.png".data rfl)
    simpa using h
  · exact (c9_amended exScraper (initScanState exScraper (mkDoc [])) "https://cdn.x/y.png"
      { scheme := "https", host := "cdn.x", path := "/y.png" } rfl).1 rfl

/-! ## Claim C10 -/

/-- Claim C10: a `title` start tag consumes the single next token
unconditionally, storing its `data` as the title whenever the title is
still empty, whatever the token's kind; hence `<title></title>`, whose
next token is the `title` end tag, yields the preview title
`"title"`. -/
theorem c10_title_lookahead :
    (∀ (s : Scraper) (st : ScanState) (attrs : List Attr) (next : Token)
      (rest : List Token),
      scanLoop s st ({ typ := .startTag, data := "title", attr := attrs } :: next :: rest) =
        (match loopCheck s (setTitleIfEmpty st next.data) with
         | some out => out
         | none => scanLoop s (setTitleIfEmpty st next.data) rest)) ∧
    (∀ (st : ScanState) (d : String), st.preview.Title = "" →
      setTitleIfEmpty st d = { st with preview := { st.preview with Title := d } }) ∧
    (∀ (s : Scraper) (doc : Document), doc.preview.Title = "" →
      outcomeTitle (scanLoop s (initScanState s doc)
        [{ typ := .startTag, data := "title" }, { typ := .endTag, data := "title" }]) =
        some "title") := by
  refine ⟨fun s st attrs next rest => scanLoop_title_cons s st attrs next rest, ?_, ?_⟩
  · intro st d hti
    unfold setTitleIfEmpty
    rw [if_pos]
    simp [hti]
  · intro s doc hti
    rw [scanLoop_title_cons]
    have h1 : setTitleIfEmpty (initScanState s doc) "title" =
        { initScanState s doc with preview :=
          { (initScanState s doc).preview with Title := "title" } } := by
      unfold setTitleIfEmpty
      rw [if_pos]
      simp [initScanState, hti]
    rw [h1]
    simp [loopCheck, initScanState, outcomeTitle, handleTagToken, isTagType,
      scanLoop.eq_def]

/-- Claim C10 (witness): the empty-title-element component applied at
a concrete session and an empty document. -/
theorem c10_witness :
    outcomeTitle (scanLoop exScraper (initScanState exScraper (mkDoc []))
      [{ typ := .startTag, data := "title" }, { typ := .endTag, data := "title" }]) =
      some "title" :=
  c10_title_lookahead.2.2 exScraper (mkDoc []) rfl

/-! ## Claim C2 -/

/-- The example head of claim C2: og:title `T`, og:description `D`,
og:image `I` inside `<head>`. -/
def c2Toks : List Token :=
  [ { typ := .startTag, data := "head" },
    { typ := .startTag
      data := "meta"
      attr := [{ key := "property", val := "og:title" },
               { key := "content", val := "T" }] },
    { typ := .startTag
      data := "meta"
      attr := [{ key := "property", val := "og:description" },
               { key := "content", val := "D" }] },
    { typ := .startTag
      data := "meta"
      attr := [{ key := "property", val := "og:image" },
               { key := "content", val := "I" }] },
    { typ := .endTag, data := "head" } ]

/-- The C2 body: the example head followed by an image tag that must
never be reached. -/
def c2LegacyBody : List Token :=
  c2Toks ++
    [{ typ := .startTag
       data := "img"
       attr := [{ key := "src", val := "https://cdn.x/y.png" }] }]

/-- The state in which the legacy scan of `c2Toks` stops. -/
def c2LegacyFinal : ScanState :=
  { preview := { Title := "T", Description := "D", Images := ["I"] }
    ogImage := true
    headPassed := true }

/-- A state carrying title, description and the og:image flag, head
not yet passed. -/
def c2WitSt : ScanState :=
  { preview := { Title := "T", Description := "D", Images := ["I"] }
    ogImage := true }

/-- A stop outcome of the end-of-iteration checks whenever title,
description and the og:image flag are set after the head with no
redirect pending. -/
theorem loopCheck_stop (s : Scraper) (st : ScanState)
    (hca : st.hasCanonical = false) (hhf : st.hasFragment = false)
    (hhp : st.headPassed = true) (hti : st.preview.Title ≠ "")
    (hde : st.preview.Description ≠ "") (hog : st.ogImage = true) :
    loopCheck s st = some (.done st) := by
  have h1 : decide (0 < st.preview.Title.length) = true := by
    have h0 : st.preview.Title.length ≠ 0 :=
      fun hc => hti ((stringLength_zero _).mp hc)
    simp only [decide_eq_true_eq]
    omega
  have h2 : decide (0 < st.preview.Description.length) = true := by
    have h0 : st.preview.Description.length ≠ 0 :=
      fun hc => hde ((stringLength_zero _).mp hc)
    simp only [decide_eq_true_eq]
    omega
  unfold loopCheck
  rw [hca, hhf, hhp, hog, h1, h2]
  simp

/-- Claim C2: early termination.  (1) After any non-title tag token
whose processing leaves — with the head passed and no redirect
pending — a non-empty title, a non-empty description and the og:image
flag, the loop stops at that very boundary with exactly the state just
computed, never touching the remaining tokens.  (2) The same holds at
a title-lookahead boundary.  (3) `parseDocument` returns the preview
of a completed scan unchanged.  (4) In the legacy variant the concrete
head og:title `T` / og:description `D` / og:image `I` stops at
`</head>` with Title `T`, Description `D`, Images `["I"]`, for every
session, leaving the image tag behind it unprocessed. -/
theorem c2_early_termination :
    (∀ (s : Scraper) (st st1 : ScanState) (tok : Token) (rest : List Token),
      isTagType tok.typ = true →
      ¬(tok.data = "title" ∧ tok.typ = .startTag) →
      handleTagToken s st tok = .ok st1 →
      st1.hasCanonical = false → st1.hasFragment = false →
      st1.headPassed = true → st1.preview.Title ≠ "" →
      st1.preview.Description ≠ "" → st1.ogImage = true →
      scanLoop s st (tok :: rest) = .done st1) ∧
    (∀ (s : Scraper) (st : ScanState) (attrs : List Attr) (next : Token)
      (rest : List Token),
      (setTitleIfEmpty st next.data).hasCanonical = false →
      (setTitleIfEmpty st next.data).hasFragment = false →
      (setTitleIfEmpty st next.data).headPassed = true →
      (setTitleIfEmpty st next.data).preview.Title ≠ "" →
      (setTitleIfEmpty st next.data).preview.Description ≠ "" →
      (setTitleIfEmpty st next.data).ogImage = true →
      scanLoop s st ({ typ := .startTag, data := "title", attr := attrs } :: next :: rest) =
        .done (setTitleIfEmpty st next.data)) ∧
    (∀ (s : Scraper) (f : Fetch) (doc : Document) (st : ScanState),
      scanLoop s (initScanState s doc) doc.body = .done st →
      parseDocument s f doc = (.ok { doc with preview := st.preview }, s)) ∧
    (∀ s : Scraper,
      scanLoopLegacy s (initScanStateLegacy (mkDoc c2LegacyBody)) c2LegacyBody =
        .done c2LegacyFinal) := by
  refine ⟨?_, ?_, parseDocument_done, fun s => rfl⟩
  · intro s st st1 tok rest htag htitle hht hca hhf hhp hti hde hog
    have htb : (tok.data == "title" && decide (tok.typ = TokenType.startTag)) = false := by
      cases hq : (tok.data == "title" && decide (tok.typ = TokenType.startTag))
      · rfl
      · rw [Bool.and_eq_true, beq_iff_eq, decide_eq_true_eq] at hq
        exact absurd ⟨hq.1, hq.2⟩ htitle
    rw [scanLoop.eq_def]
    dsimp only
    rw [htag, htb, hht]
    dsimp only [Bool.not_true]
    rw [if_neg (by simp)]
    rw [if_neg (by simp)]
    rw [loopCheck_stop s st1 hca hhf hhp hti hde hog]
  · intro s st attrs next rest hca hhf hhp hti hde hog
    rw [scanLoop_title_cons]
    rw [loopCheck_stop s _ hca hhf hhp hti hde hog]

/-- Claim C2 (witness): the first component applied at the closing
head tag of a state already carrying all three fields, with an unread
image tag behind it. -/
theorem c2_witness :
    scanLoop exScraper c2WitSt
        [{ typ := .endTag, data := "head" },
         { typ := .startTag
           data := "img"
           attr := [{ key := "src", val := "https://cdn.x/y.png" }] }] =
      .done { c2WitSt with headPassed := true } :=
  c2_early_termination.1 exScraper c2WitSt { c2WitSt with headPassed := true }
    { typ := .endTag, data := "head" } _ rfl (by decide) rfl rfl rfl rfl
    (by decide) (by decide) rfl

/-! ## Claim C3 -/

/-- A session whose redirect budget sits at the minimum 64-bit Go
`int` value. -/
def c3MinScraper : Scraper :=
  { Url := { scheme := "https", host := "ex.com", path := "/p" }
    MaxRedirect := -9223372036854775808 }

/-- A transport that refuses every request. -/
def c3NoFetch : Fetch :=
  fun _ => none

/-- Claim C3 (counterexample): the budget CAN be increased by an
operation.  At the minimum `int` value the unconditional per-fetch
decrement `scraper.MaxRedirect -= 1` wraps: `getDocument` on a session
with budget `-2^63` leaves the budget at `2^63 - 1`, strictly larger,
refuting the claim's clause that no operation ever increases the
budget. -/
theorem c3_counterexample :
    ((getDocument c3MinScraper c3NoFetch).2).MaxRedirect = 9223372036854775807 ∧
    ¬ ((getDocument c3MinScraper c3NoFetch).2).MaxRedirect ≤
        c3MinScraper.MaxRedirect := by
  constructor
  · decide
  · decide

/-- Claim C3 (amended): once the per-fetch decrement leaves the budget
non-positive, no pending redirect fires (the loop never reports one),
and `parseDocument` never consults the transport — its result is
oracle-independent, built entirely from the current document.
`toFragmentUrl` preserves the budget and `parseDocument` never raises
it (every re-fetch is guarded by a positivity check, under which the
decrement cannot wrap); `getDocument` and hence `Scrape` do not raise
it either, except from the minimum 64-bit `int` value, where the
unconditional decrement wraps around to the maximum. -/
theorem c3_amended :
    (∀ (s : Scraper) (st : ScanState) (ts : List Token),
      s.MaxRedirect ≤ 0 → (scanLoop s st ts).isRedirect = false) ∧
    (∀ (s : Scraper) (f g : Fetch) (doc : Document),
      s.MaxRedirect ≤ 0 → parseDocument s f doc = parseDocument s g doc) ∧
    (∀ s : Scraper, ((toFragmentUrl s).2).MaxRedirect = s.MaxRedirect) ∧
    (∀ (s : Scraper) (f : Fetch), -9223372036854775808 < s.MaxRedirect →
      ((getDocument s f).2).MaxRedirect ≤ s.MaxRedirect) ∧
    (∀ (s : Scraper) (f : Fetch) (doc : Document),
      ((parseDocument s f doc).2).MaxRedirect ≤ s.MaxRedirect) ∧
    (∀ (s : Scraper) (f : Fetch), -9223372036854775808 < s.MaxRedirect →
      ((Scrape s f).2).MaxRedirect ≤ s.MaxRedirect) :=
  ⟨scanLoop_no_redirect, parseDocument_fetch_indep, toFragmentUrl_maxRedirect,
    fun s f h => le_of_lt (getDocument_maxRedirect_lt s f h),
    parseDocument_maxRedirect_le, scrape_maxRedirect_le⟩

/-- Claim C3 (witness): the exhausted-budget components applied at a
session with budget zero, under two different transports, and the
non-increase components applied at the same in-range session. -/
theorem c3_witness :
    ((scanLoop exScraper (initScanState exScraper (mkDoc c2Toks)) c2Toks).isRedirect =
      false) ∧
    (parseDocument exScraper (fun _ => none) (mkDoc c2Toks) =
      parseDocument exScraper
        (fun _ => some { effectiveUrl := {}, body := [] }) (mkDoc c2Toks)) ∧
    (((getDocument exScraper (fun _ => none)).2).MaxRedirect ≤
      exScraper.MaxRedirect) ∧
    (((Scrape exScraper (fun _ => none)).2).MaxRedirect ≤ exScraper.MaxRedirect) :=
  ⟨c3_amended.1 exScraper (initScanState exScraper (mkDoc c2Toks)) c2Toks
      (by decide),
    c3_amended.2.1 exScraper (fun _ => none)
      (fun _ => some { effectiveUrl := {}, body := [] }) (mkDoc c2Toks) (by decide),
    c3_amended.2.2.2.1 exScraper (fun _ => none) (by decide),
    c3_amended.2.2.2.2.2 exScraper (fun _ => none) (by decide)⟩

/-! ## Claim C6 -/

/-- Claim C6 (counterexample): on the decoded URL `http://x/#! ⏎q`
(space, newline, `q` after the hash-bang) the rewrite emits `+` for
the space — not a percent-encoding — and leaves everything from the
newline on in place, while the claim's construction yields `%20q`. -/
theorem c6_counterexample :
    toFragmentReplaced ("http://x/#! \nq").data false =
      ("http://x/?_escaped_fragment_=+\nq").data ∧
    specFragmentRewrite ("http://x/#! \nq").data false =
      ("http://x/?_escaped_fragment_=%20q").data ∧
    toFragmentReplaced ("http://x/#! \nq").data false ≠
      specFragmentRewrite ("http://x/#! \nq").data false :=
  ⟨rfl, rfl, by decide⟩

/-- Claim C6 (amended): the fragment rewrite equals the amended
construction on every input — the payload is the run after the first
`#!` up to (excluding) the first newline, dropped/escaped/kept per the
byte classes with Go query escaping (space becomes `+`, everything
else `%XX` over the character's UTF-8 bytes), and the token replaces
`#!` plus that payload only, with `?` or `&` per the query test. -/
theorem c6_amended :
    ∀ (d : List Char) (hasQ : Bool),
      toFragmentReplaced d hasQ = specFragmentRewriteAmended d hasQ := by
  intro d hasQ
  rcases hashBang_cases d with ⟨hs, ha⟩ | ⟨pre, rest, hs, ha, hd, hpre⟩
  · unfold toFragmentReplaced specFragmentRewriteAmended
    rw [hs, ha]
  · unfold toFragmentReplaced specFragmentRewriteAmended
    rw [hs, ha]
    dsimp only
    have hsplit : d = pre ++ '#' :: '!' ::
        (rest.takeWhile (· ≠ '\n') ++ rest.dropWhile (· ≠ '\n')) := by
      rw [List.takeWhile_append_dropWhile]
      exact hd
    rw [hsplit, replaceFirst_append _ _ _ pre hpre, escapePayload_eq_amended]
    simp [List.append_assoc]

/-! ## Claim C7 -/

/-- A session URL whose string percent-decodes badly: the raw query
`a=%zz` survives `url.Parse` (queries are not validated) but fails
`url.QueryUnescape`. -/
def c7Url : URL :=
  { scheme := "http", host := "x", path := "/", rawQuery := "a=%zz", fragment := "!f" }

/-- The session holding `c7Url`, with budget to spare. -/
def c7Scraper : Scraper :=
  { Url := c7Url, MaxRedirect := 5 }

/-- A transport that answers every request with an empty body from the
same URL. -/
def c7Fetch : Fetch :=
  fun _ => some { effectiveUrl := c7Url, body := [] }

/-- The scraper state after `getDocument` on the failing session. -/
def c7S1 : Scraper :=
  { Url := c7Url, EscapedFragmentUrl := none, MaxRedirect := 4 }

/-- The document fetched for the failing session. -/
def c7Doc : Document :=
  { body := [], preview := { Link := urlString c7Url } }

/-- Claim C7 (counterexample): the session URL's string fails
percent-decoding, yet the top-level scrape succeeds and returns a
document — the decode error was discarded, not propagated. -/
theorem c7_counterexample :
    queryUnescape (urlString c7Scraper.Url) = none ∧
    isOkResult (Scrape c7Scraper c7Fetch) = true := by
  refine ⟨rfl, ?_⟩
  have hg : getDocument c7Scraper c7Fetch = (.ok c7Doc, c7S1) := rfl
  unfold Scrape
  rw [hg]
  dsimp only
  rw [parseDocument_done c7S1 c7Fetch c7Doc (initScanState c7S1 c7Doc) rfl]
  rfl

/-- Claim C7 (amended): a percent-decoding failure during fragment
rewriting is silently swallowed: `toFragmentUrl` leaves the session
unchanged and returns the error, but both call sites discard it, so
the top-level scrape can never fail with the decode error — it
proceeds against the original URL. -/
theorem c7_amended :
    (∀ s : Scraper, queryUnescape (urlString s.Url) = none → (toFragmentUrl s).2 = s) ∧
    (∀ (s : Scraper) (f : Fetch), (Scrape s f).1 ≠ .error .urlDecodeError) := by
  constructor
  · intro s hq
    unfold toFragmentUrl
    rw [hq]
  · exact scrape_no_decode

/-- Claim C7 (witness): the amended statement at the concrete failing
session and transport. -/
theorem c7_witness :
    (toFragmentUrl c7Scraper).2 = c7Scraper ∧
    (Scrape c7Scraper c7Fetch).1 ≠ .error .urlDecodeError :=
  ⟨c7_amended.1 c7Scraper rfl, c7_amended.2 c7Scraper c7Fetch⟩

end Goscraper

